import Mathlib

/-
Verification of the turn-orchestration engine of the ai-meeting-app
repository: a shallow embedding in Lean 4 of the data model
(`types.ts`), the credential pool and generation gateway
(`services/geminiService.ts`), and the meeting controller / turn
sequencer (the `App` component: `runMeetingStep`, `handleStartMeeting`,
`handleStopMeeting`, `handleResetMeeting`, `handleSendMessage`, plus the
`canStartMeeting` guard of `SettingsPanel`).

Asynchronous generation calls are modelled by oracles: a generation
attempt's outcome is an input to the step functions, and the atomic
segments of the async `runMeetingStep` between its `await` points become
separate step functions linked by an explicit `Phase` marker.
-/

set_option maxRecDepth 4096

/-! ## Data model (src/types.ts) -/

/-- `Persona` from types.ts: id, display name, role description. -/
structure Persona where
  id : String
  name : String
  role : String
  deriving DecidableEq, Repr

/-- `ApiKeyStatus` from types.ts:
`'unchecked' | 'checking' | 'active' | 'rate-limited' | 'invalid'`. -/
inductive ApiKeyStatus where
  | unchecked
  | checking
  | active
  | rateLimited
  | invalid
  deriving DecidableEq, Repr

/-- `ApiKey` from types.ts: id, secret value, status. -/
structure ApiKey where
  id : String
  value : String
  status : ApiKeyStatus
  deriving DecidableEq, Repr

/-- `ChatMessage` from types.ts.  The optional boolean flags default to
false (absent in TypeScript). -/
structure ChatMessage where
  personaId : String
  personaName : String
  personaRole : String
  text : String
  isThinking : Bool := false
  isOrchestrator : Bool := false
  isUser : Bool := false
  deriving DecidableEq, Repr

/-- `createOrchestratorMessage` from App (src/unnamed/part_001 lines 16-22). -/
def createOrchestratorMessage (text : String) : ChatMessage :=
  { personaId := "orchestrator"
    personaName := "AI Orchestrator"
    personaRole := "Meeting Moderator"
    text := text
    isOrchestrator := true }

/-! ## JavaScript string primitives

The source uses `trim()`, `toLowerCase()`, `split()` and `includes()`.
We model them over the string's character list (Lean's own `String.trim`
and friends are defined through byte-position recursion and do not reduce
definitionally, which would block evaluating the model on concrete
inputs). -/

/-- JavaScript `String.prototype.trim`: strip leading and trailing
whitespace. -/
def jsTrim (s : String) : String :=
  String.mk (((s.data.dropWhile Char.isWhitespace).reverse.dropWhile
    Char.isWhitespace).reverse)

/-- JavaScript `String.prototype.toLowerCase` (over the ASCII range the
error signatures use). -/
def jsToLower (s : String) : String :=
  String.mk (s.data.map Char.toLower)

/-- JavaScript `String.prototype.split('\n')`. -/
def jsSplitNewline (s : String) : List String :=
  (s.data.splitOn '\n').map String.mk

/-- JavaScript `String.prototype.includes`. -/
def jsIncludes (s sub : String) : Bool :=
  decide (sub.data <:+: s.data)

/-! ## Credential pool (ApiKeyManager, src/services/geminiService.ts lines 14-42) -/

/-- The constructor filter of `ApiKeyManager`:
`keys.filter(k => k.status === 'active' && k.value.trim() !== '')`. -/
def usableKey (k : ApiKey) : Bool :=
  decide (k.status = ApiKeyStatus.active ∧ jsTrim k.value ≠ "")

/-- `ApiKeyManager`: the filtered snapshot of keys taken at construction,
plus the round-robin cursor `currentIndex` (initially 0). -/
structure ApiKeyManager where
  keys : List ApiKey
  currentIndex : Nat
  deriving DecidableEq, Repr

/-- The `ApiKeyManager` constructor: filters the caller's key list once,
at creation time, and starts the cursor at 0. -/
def mkApiKeyManager (keys : List ApiKey) : ApiKeyManager :=
  { keys := keys.filter usableKey, currentIndex := 0 }

/-- `getAvailableKeyCount()`: the length of the snapshot list. -/
def ApiKeyManager.getAvailableKeyCount (m : ApiKeyManager) : Nat :=
  m.keys.length

/-- `getNextKey()`: returns `this.keys[this.currentIndex]` and advances the
cursor modulo the snapshot length; returns none when the snapshot is empty. -/
def ApiKeyManager.getNextKey (m : ApiKeyManager) : Option ApiKey × ApiKeyManager :=
  if m.getAvailableKeyCount = 0 then (none, m)
  else (m.keys[m.currentIndex]?,
        { m with currentIndex := (m.currentIndex + 1) % m.keys.length })

/-! ## Generation gateway (generateContentWithRetry, geminiService.ts lines 72-124) -/

/-- Outcome of one backend generation attempt (`ai.models.generateContent`):
either a response text or a thrown error carrying a message string. -/
inductive AttemptResult where
  | ok (text : String)
  | fail (msg : String)
  deriving DecidableEq, Repr

/-- The error classification of geminiService.ts line 105: the lowercased
message contains "429", "rate limit" or "resource_exhausted". -/
def isRateLimitMessage (msg : String) : Bool :=
  let m := jsToLower msg
  jsIncludes m "429" || jsIncludes m "rate limit" || jsIncludes m "resource_exhausted"

/-- How a `generateContentWithRetry` call can end: a successful response,
an `AbortError`, a `RateLimitError` thrown for a single key assumed invalid
(line 114), a `RateLimitError` thrown when every attempt was rate-limited
(line 120), or the zero-keys error of line 79. -/
inductive GenOutcome where
  | success (text : String)
  | abortError
  | keyInvalid (failingKey : String)
  | allRateLimited (failingKey : String)
  | noKeys
  deriving DecidableEq, Repr

/-- The `for (let keyAttempt = 0; ...)` loop of `generateContentWithRetry`
(lines 84-123).  `outcome i` is the backend's answer to the i-th attempt
and `aborted i` the abort signal's value read just before it.  Returns the
call outcome, the key manager after the call, and the chronological list of
keys on which a backend attempt was actually made. -/
def retryAttempts (outcome : Nat → AttemptResult) (aborted : Nat → Bool) :
    Nat → Nat → ApiKeyManager → GenOutcome × ApiKeyManager × List ApiKey
  | 0, _, mgr =>
      let r := mgr.getNextKey
      (GenOutcome.allRateLimited ((r.1.map ApiKey.value).getD ""), r.2, [])
  | rem + 1, i, mgr =>
      let r := mgr.getNextKey
      match r.1 with
      | none => retryAttempts outcome aborted rem (i + 1) r.2
      | some kObj =>
          if aborted i then (GenOutcome.abortError, r.2, [])
          else
            match outcome i with
            | AttemptResult.ok t => (GenOutcome.success t, r.2, [kObj])
            | AttemptResult.fail msg =>
                if isRateLimitMessage msg then
                  let rest := retryAttempts outcome aborted rem (i + 1) r.2
                  (rest.1, rest.2.1, kObj :: rest.2.2)
                else (GenOutcome.keyInvalid kObj.value, r.2, [kObj])

/-- `generateContentWithRetry` (lines 72-124): fail fast when the usable
snapshot is empty, otherwise run up to `getAvailableKeyCount()` attempts. -/
def generateContentWithRetry (mgr : ApiKeyManager) (outcome : Nat → AttemptResult)
    (aborted : Nat → Bool) : GenOutcome × ApiKeyManager × List ApiKey :=
  let totalKeys := mgr.getAvailableKeyCount
  if totalKeys = 0 then (GenOutcome.noKeys, mgr, [])
  else retryAttempts outcome aborted totalKeys 0 mgr

/-- `generateAgenda`'s post-processing (geminiService.ts line 129):
`response.text.split('\n').filter(item => item.trim().length > 1)`. -/
def agendaItemsOfText (text : String) : List String :=
  (jsSplitNewline text).filter (fun item => decide (1 < (jsTrim item).length))

/-- The keys drawn from a manager by `n` successive `getNextKey` calls,
in order (used to state round-robin properties of the pool). -/
def drawnKeys : Nat → ApiKeyManager → List (Option ApiKey)
  | 0, _ => []
  | n + 1, mgr => mgr.getNextKey.1 :: drawnKeys n mgr.getNextKey.2

/-- `n` consecutive `generateContentWithRetry` calls that each succeed on
their first attempt (`texts j` is the j-th response): the concatenated
attempted-keys log and the final manager state. -/
def successRun (texts : Nat → String) : Nat → ApiKeyManager → List ApiKey × ApiKeyManager
  | 0, mgr => ([], mgr)
  | n + 1, mgr =>
      let r := generateContentWithRetry mgr (fun _ => AttemptResult.ok (texts n)) (fun _ => false)
      let rest := successRun texts n r.2.1
      (r.2.2 ++ rest.1, rest.2)

/-! ## Turn sequencer, success path (runMeetingStep, src/unnamed/part_001 lines 166-232)

For the happy-path transcript shape (no interjection, no failure, no
cancellation) we model one invocation of `runMeetingStep` in which every
awaited generation call succeeds, as a pure state transformer.  The
oracles stand for the generation backend: `agendaItems` is the (already
filtered) result of `generateAgenda`, `turnText i j` the response of
`generateTurn` for agenda index `i` and speaker index `j`, and
`summaryText` the response of `generateSummary`. -/

/-- The meeting state of `meetingStateRef` together with the pieces of
React state `runMeetingStep` reads and writes (`chatHistory`,
`isMeetingRunning`) and the abort flag of the controller. -/
structure TickState where
  chatHistory : List ChatMessage
  agenda : List String
  currentAgendaIndex : Nat
  currentSpeakerIndex : Int
  isMeetingRunning : Bool
  aborted : Bool
  deriving DecidableEq, Repr

/-- The default value TypeScript indexing would yield out of range; never
reached in the runs we reason about. -/
def noPersona : Persona := { id := "", name := "", role := "" }

/-- One invocation of `runMeetingStep` (part_001 lines 166-232) in which
every awaited generation call succeeds.  Follows the source line by line:
the early return when the meeting is not running (line 167), the abort
check (lines 169-174), agenda generation when the agenda is empty (lines
181-189), speaker/agenda advance with wrap (lines 191-197), the summary
branch (lines 200-208), the agenda-advance notice (lines 210-212), and the
persona turn with the pending thinking entry replaced in place (lines
221-231). -/
def runMeetingStep (personas : List Persona) (agendaItems : List String)
    (turnText : Nat → Nat → String) (summaryText : String) (s : TickState) : TickState :=
  if s.isMeetingRunning = false then s
  else if s.aborted = true then
    { s with isMeetingRunning := false,
             chatHistory := s.chatHistory ++
               [createOrchestratorMessage "The meeting was stopped by the user."] }
  else
    let s :=
      if s.agenda.length = 0 then
        { s with agenda := agendaItems,
                 chatHistory := s.chatHistory ++
                   [createOrchestratorMessage
                     ("**Meeting Agenda:**\n" ++ String.intercalate "\n" agendaItems)],
                 currentAgendaIndex := 0,
                 currentSpeakerIndex := -1 }
      else s
    let nextSpeaker0 : Int := s.currentSpeakerIndex + 1
    let wrap : Bool := decide ((personas.length : Int) ≤ nextSpeaker0)
    let nextSpeakerIndex : Int := if wrap then 0 else nextSpeaker0
    let nextAgendaIndex : Nat :=
      if wrap then s.currentAgendaIndex + 1 else s.currentAgendaIndex
    if s.agenda.length ≤ nextAgendaIndex then
      { s with isMeetingRunning := false,
               chatHistory := s.chatHistory ++
                 [createOrchestratorMessage
                    "The discussion is complete. The AI Orchestrator will now summarize.",
                  createOrchestratorMessage
                    ("**Meeting Summary & Action Items:**\n" ++ summaryText),
                  createOrchestratorMessage "The meeting has concluded."] }
    else
      let hist1 :=
        if s.currentAgendaIndex < nextAgendaIndex then
          s.chatHistory ++
            [createOrchestratorMessage
              ("Let's now discuss: **" ++ jsTrim (s.agenda.getD nextAgendaIndex "") ++ "**")]
        else s.chatHistory
      let currentPersona := personas.getD nextSpeakerIndex.toNat noPersona
      let thinkingMessage : ChatMessage :=
        { personaId := currentPersona.id, personaName := currentPersona.name,
          personaRole := currentPersona.role, text := "", isThinking := true }
      let finalMessage : ChatMessage :=
        { thinkingMessage with
          text := turnText nextAgendaIndex nextSpeakerIndex.toNat, isThinking := false }
      { s with currentAgendaIndex := nextAgendaIndex,
               currentSpeakerIndex := nextSpeakerIndex,
               chatHistory := (hist1 ++ [thinkingMessage]).dropLast ++ [finalMessage] }

/-- `k` scheduled ticks of the meeting loop (the 5-second `setTimeout` of
part_001 lines 258-266 firing `k` times), each running `runMeetingStep`. -/
def runTicks (personas : List Persona) (agendaItems : List String)
    (turnText : Nat → Nat → String) (summaryText : String) :
    Nat → TickState → TickState
  | 0, s => s
  | k + 1, s =>
      runTicks personas agendaItems turnText summaryText k
        (runMeetingStep personas agendaItems turnText summaryText s)

/-- The state right after `handleStartMeeting` (part_001 lines 269-283):
empty agenda, indices reset, the opening notice as the whole transcript,
running, not aborted. -/
def startedTickState : TickState :=
  { chatHistory := [createOrchestratorMessage
      "The meeting will now begin. The AI Orchestrator is generating an agenda..."],
    agenda := [],
    currentAgendaIndex := 0,
    currentSpeakerIndex := -1,
    isMeetingRunning := true,
    aborted := false }

/-! Expected transcript pieces for the happy-path run. -/

/-- The final (non-thinking) transcript entry of the persona turn for
agenda index `i` and speaker index `j`. -/
def turnMessage (personas : List Persona) (turnText : Nat → Nat → String)
    (i j : Nat) : ChatMessage :=
  { personaId := (personas.getD j noPersona).id,
    personaName := (personas.getD j noPersona).name,
    personaRole := (personas.getD j noPersona).role,
    text := turnText i j }

/-- The orchestrator notice announcing agenda topic `i`. -/
def topicNotice (agendaItems : List String) (i : Nat) : ChatMessage :=
  createOrchestratorMessage
    ("Let's now discuss: **" ++ jsTrim (agendaItems.getD i "") ++ "**")

/-- All `n` persona turns of agenda topic `i`, in speaker order. -/
def topicTurns (personas : List Persona) (turnText : Nat → Nat → String)
    (n i : Nat) : List ChatMessage :=
  (List.range n).map (fun j => turnMessage personas turnText i j)

/-- Topic `i`'s transcript block for `i ≥ 1`: its notice, then its turns. -/
def topicBlock (personas : List Persona) (agendaItems : List String)
    (turnText : Nat → Nat → String) (n i : Nat) : List ChatMessage :=
  topicNotice agendaItems i :: topicTurns personas turnText n i

/-- The transcript the code actually produces on a happy-path run with
`n` personas and `m` agenda topics: opening notice, agenda listing, the
first topic's turns with no topic notice, a notice-plus-turns block for
each later topic, then the completion notice, the summary and the closing
notice. -/
def expectedTranscript (personas : List Persona) (agendaItems : List String)
    (turnText : Nat → Nat → String) (summaryText : String) (n m : Nat) :
    List ChatMessage :=
  createOrchestratorMessage
      "The meeting will now begin. The AI Orchestrator is generating an agenda..." ::
    createOrchestratorMessage
      ("**Meeting Agenda:**\n" ++ String.intercalate "\n" agendaItems) ::
    (topicTurns personas turnText n 0 ++
      ((List.range (m - 1)).map
        (fun u => topicBlock personas agendaItems turnText n (u + 1))).flatten ++
      [createOrchestratorMessage
        "The discussion is complete. The AI Orchestrator will now summarize.",
       createOrchestratorMessage ("**Meeting Summary & Action Items:**\n" ++ summaryText),
       createOrchestratorMessage "The meeting has concluded."])

/-! ## Meeting controller as an event machine (src/unnamed/part_001)

`runMeetingStep` is an async function: between its `await` points, React
event handlers (`handleSendMessage`, `handleStopMeeting`, ...) can run.
We model the app as a state machine whose steps are the handlers and the
atomic segments of `runMeetingStep`; `phase` marks which awaited
generation call (if any) is outstanding, and each awaited call is resumed
by an explicit event carrying the call's result.  The `turnCalls` field is
an instrumentation log: the `userIntervention` argument of each
`generateTurn` invocation, in order. -/

/-- Which awaited generation call of `runMeetingStep` is outstanding. -/
inductive Phase where
  | idle
  | awaitAgenda
  | awaitTurn
  | awaitSummary
  deriving DecidableEq, Repr

/-- How an awaited generation call resolves, as seen by `runMeetingStep`'s
try/catch (part_001 lines 234-251): a value, an `AbortError`, a
`RateLimitError` (carrying message and failing key, geminiService.ts lines
4-11), or any other error. -/
inductive GenResult where
  | ok (text : String)
  | abortErr
  | rateLimitError (msg : String) (failingKey : String)
  | otherError (msg : String)
  deriving DecidableEq, Repr

/-- The React state of `App` plus `meetingStateRef`, the abort controller
(`aborted`, `hasController`), the outstanding-call marker `phase`, the
in-flight thinking message captured by `runMeetingStep`'s closure
(`pendingTurn`), scheduled cooldown timers (`cooldownPending`, ids with a
pending 60-second status reset), and the `turnCalls` instrumentation log. -/
structure AppState where
  personas : List Persona
  meetingTopic : String
  apiKeys : List ApiKey
  chatHistory : List ChatMessage
  isMeetingRunning : Bool
  isWaitingForAI : Bool
  error : Option String
  agenda : List String
  currentAgendaIndex : Nat
  currentSpeakerIndex : Int
  userIntervention : Option String
  aborted : Bool
  hasController : Bool
  phase : Phase
  pendingTurn : Option ChatMessage
  cooldownPending : List String
  turnCalls : List (Option String)
  deriving DecidableEq, Repr

/-- The initial `App` state (the `useState` initializers of part_001 lines
27-46), for given loaded personas, topic and API keys. -/
def initApp (personas : List Persona) (topic : String) (keys : List ApiKey) : AppState :=
  { personas := personas, meetingTopic := topic, apiKeys := keys,
    chatHistory := [], isMeetingRunning := false, isWaitingForAI := false,
    error := none, agenda := [], currentAgendaIndex := 0,
    currentSpeakerIndex := -1, userIntervention := none, aborted := false,
    hasController := false, phase := Phase.idle, pendingTurn := none,
    cooldownPending := [], turnCalls := [] }

/-- The middle segment of `runMeetingStep` (part_001 lines 191-231) up to
the next `await`: advance speaker/agenda indices, either enter the summary
branch (append the completion notice, start `generateSummary`) or append
the agenda-advance notice and the pending thinking entry and start
`generateTurn` (whose `userIntervention` argument is logged in
`turnCalls`). -/
def proceedToTurn (s : AppState) : AppState :=
  let nextSpeaker0 : Int := s.currentSpeakerIndex + 1
  let wrap : Bool := decide ((s.personas.length : Int) ≤ nextSpeaker0)
  let nextSpeakerIndex : Int := if wrap then 0 else nextSpeaker0
  let nextAgendaIndex : Nat :=
    if wrap then s.currentAgendaIndex + 1 else s.currentAgendaIndex
  if s.agenda.length ≤ nextAgendaIndex then
    let hist := s.chatHistory ++
      [createOrchestratorMessage
        "The discussion is complete. The AI Orchestrator will now summarize."]
    { s with chatHistory := hist, isWaitingForAI := true, phase := Phase.awaitSummary }
  else
    let hist1 :=
      if s.currentAgendaIndex < nextAgendaIndex then
        s.chatHistory ++
          [createOrchestratorMessage
            ("Let's now discuss: **" ++ jsTrim (s.agenda.getD nextAgendaIndex "") ++ "**")]
      else s.chatHistory
    let currentPersona := s.personas.getD nextSpeakerIndex.toNat noPersona
    let thinkingMessage : ChatMessage :=
      { personaId := currentPersona.id, personaName := currentPersona.name,
        personaRole := currentPersona.role, text := "", isThinking := true }
    { s with currentAgendaIndex := nextAgendaIndex,
             currentSpeakerIndex := nextSpeakerIndex,
             isWaitingForAI := true,
             chatHistory := hist1 ++ [thinkingMessage],
             pendingTurn := some thinkingMessage,
             turnCalls := s.turnCalls ++ [s.userIntervention],
             phase := Phase.awaitTurn }

/-- The guard under which the inter-turn timer schedules a tick (the
`useEffect` of part_001 lines 258-266): meeting running, not awaiting a
generation result, and the last transcript entry not a thinking entry. -/
def tickGuard (s : AppState) : Bool :=
  s.isMeetingRunning && !s.isWaitingForAI &&
    (match s.chatHistory.getLast? with
     | none => true
     | some lastMessage => !lastMessage.isThinking)

/-- The opening segment of `runMeetingStep` (part_001 lines 166-189), run
when the scheduled timer fires: the not-running and no-orchestrator early
returns, the abort check, then either start `generateAgenda` (agenda still
empty) or fall through to `proceedToTurn`. -/
def scheduledTick (s : AppState) : AppState :=
  if tickGuard s = false then s
  else if s.isMeetingRunning = false then s
  else if s.hasController = false then s
  else if s.aborted = true then
    { s with isMeetingRunning := false, isWaitingForAI := false,
             chatHistory := s.chatHistory ++
               [createOrchestratorMessage "The meeting was stopped by the user."] }
  else if s.agenda.length = 0 then
    { s with isWaitingForAI := true, phase := Phase.awaitAgenda }
  else proceedToTurn s

/-- The catch block of `runMeetingStep` (part_001 lines 234-254): on
`AbortError` drop thinking entries silently; on `RateLimitError` surface
the message and, when the failing key is found, mark it `rate-limited` and
schedule its 60-second reset; on any other error surface the message.
Always: drop thinking entries, stop the meeting, clear the waiting flag. -/
def meetingErrorTail (e : GenResult) (s : AppState) : AppState :=
  let s : AppState :=
    match e with
    | GenResult.abortErr =>
        { s with chatHistory := s.chatHistory.filter (fun m => !m.isThinking) }
    | GenResult.rateLimitError msg failingKeyValue =>
        let s := { s with error := some ("An error occurred: " ++ msg) }
        match s.apiKeys.find? (fun k => k.value == failingKeyValue) with
        | some failingKey =>
            let keys := s.apiKeys.map (fun k : ApiKey =>
              if k.id == failingKey.id then { k with status := ApiKeyStatus.rateLimited } else k)
            { s with apiKeys := keys,
                     cooldownPending := s.cooldownPending ++ [failingKey.id] }
        | none => s
    | GenResult.otherError msg =>
        { s with error := some ("An unexpected error occurred: " ++ msg) }
    | GenResult.ok _ => s
  { s with chatHistory := s.chatHistory.filter (fun m => !m.isThinking),
           isMeetingRunning := false, isWaitingForAI := false,
           phase := Phase.idle, pendingTurn := none }

/-- Resumption of the awaited `generateAgenda` call (part_001 lines
183-189): on success store the agenda, append the agenda notice, reset the
indices and continue into `proceedToTurn` within the same invocation; on
failure run the catch block. -/
def resumeAgenda (res : GenResult) (s : AppState) : AppState :=
  if s.phase ≠ Phase.awaitAgenda then s
  else
    match res with
    | GenResult.ok text =>
        let agendaItems := agendaItemsOfText text
        proceedToTurn
          { s with agenda := agendaItems,
                   chatHistory := s.chatHistory ++
                     [createOrchestratorMessage
                       ("**Meeting Agenda:**\n" ++ String.intercalate "\n" agendaItems)],
                   currentAgendaIndex := 0, currentSpeakerIndex := -1,
                   isWaitingForAI := false, phase := Phase.idle }
    | e => meetingErrorTail e s

/-- Resumption of the awaited `generateTurn` call (part_001 lines
227-232): on success clear the pending interjection and replace the
thinking entry (the closure's `thinkingMessage`) by the final entry via
slice-off-last-and-append; on failure run the catch block (note the
interjection is not cleared on failure). -/
def resumeTurn (res : GenResult) (s : AppState) : AppState :=
  if s.phase ≠ Phase.awaitTurn then s
  else
    match res with
    | GenResult.ok text =>
        match s.pendingTurn with
        | some thinkingMessage =>
            let finalMessage := { thinkingMessage with text := text, isThinking := false }
            { s with userIntervention := none,
                     chatHistory := s.chatHistory.dropLast ++ [finalMessage],
                     isWaitingForAI := false, phase := Phase.idle, pendingTurn := none }
        | none => { s with userIntervention := none, isWaitingForAI := false,
                           phase := Phase.idle }
    | e => meetingErrorTail e s

/-- Resumption of the awaited `generateSummary` call (part_001 lines
203-207): on success append the summary and the closing notice and stop;
on failure run the catch block. -/
def resumeSummary (res : GenResult) (s : AppState) : AppState :=
  if s.phase ≠ Phase.awaitSummary then s
  else
    match res with
    | GenResult.ok text =>
        let hist := s.chatHistory ++
          [createOrchestratorMessage ("**Meeting Summary & Action Items:**\n" ++ text),
           createOrchestratorMessage "The meeting has concluded."]
        { s with chatHistory := hist,
                 isMeetingRunning := false, isWaitingForAI := false, phase := Phase.idle }
    | e => meetingErrorTail e s

/-- `handleStartMeeting` (part_001 lines 269-283): bail out when already
running or when no key has status `active` (surfacing an error in the
latter case); otherwise clear the error, reset the transcript to the
opening notice, install a fresh abort controller and orchestrator, reset
the meeting state and set the running flag. -/
def handleStartMeeting (s : AppState) : AppState :=
  let hasActiveKey := s.apiKeys.any (fun k => decide (k.status = ApiKeyStatus.active))
  if s.isMeetingRunning || !hasActiveKey then
    if !hasActiveKey then
      { s with error := some "Please add and verify at least one active API key to start." }
    else s
  else
    { s with error := none,
             chatHistory := [createOrchestratorMessage
               "The meeting will now begin. The AI Orchestrator is generating an agenda..."],
             aborted := false, hasController := true,
             agenda := [], currentAgendaIndex := 0, currentSpeakerIndex := -1,
             userIntervention := none,
             isMeetingRunning := true }

/-- `canStartMeeting` (SettingsPanel, src/unnamed/part_005 line 101):
the Start button is enabled only when there is at least one persona, the
topic is non-blank, and some key has status `active`. -/
def canStartMeeting (s : AppState) : Bool :=
  decide (0 < s.personas.length) && decide (0 < (jsTrim s.meetingTopic).length) &&
    s.apiKeys.any (fun k => decide (k.status = ApiKeyStatus.active))

/-- A click of the Start Meeting button: a disabled button (part_005 lines
250-251) does nothing, an enabled one invokes `handleStartMeeting`. -/
def startMeeting (s : AppState) : AppState :=
  if canStartMeeting s then handleStartMeeting s else s

/-- `handleStopMeeting` (part_001 lines 285-291): signal the abort
controller when one exists, clear the running and waiting flags. -/
def handleStopMeeting (s : AppState) : AppState :=
  { s with aborted := if s.hasController then true else s.aborted,
           isMeetingRunning := false, isWaitingForAI := false }

/-- `handleResetMeeting` (part_001 lines 293-297): stop, then clear the
transcript and the error. -/
def handleResetMeeting (s : AppState) : AppState :=
  { handleStopMeeting s with chatHistory := [], error := none }

/-- `handleSendMessage` (part_001 lines 299-307): ignored unless the
meeting is running and no generation call is awaited; otherwise store the
interjection (overwriting any previous one) and append the user entry. -/
def handleSendMessage (text : String) (s : AppState) : AppState :=
  if !s.isMeetingRunning || s.isWaitingForAI then s
  else
    { s with userIntervention := some text,
             chatHistory := s.chatHistory ++
               [{ personaId := "user", personaName := "You",
                  personaRole := "Facilitator", text := text, isUser := true }] }

/-- The 60-second cooldown timer of part_001 lines 244-246 firing for key
`id`: reset the key's status to `active`.  Guarded by the pending-timer
list (a timer fires once, and only if it was scheduled). -/
def cooldownFire (id : String) (s : AppState) : AppState :=
  if id ∈ s.cooldownPending then
    let keys := s.apiKeys.map (fun k : ApiKey =>
      if k.id == id then { k with status := ApiKeyStatus.active } else k)
    { s with apiKeys := keys, cooldownPending := s.cooldownPending.erase id }
  else s

/-- The app states reachable from an initial load by user events, timer
firings and generation-call resumptions. -/
inductive Reachable : AppState → Prop
  | init (personas : List Persona) (topic : String) (keys : List ApiKey) :
      Reachable (initApp personas topic keys)
  | start {s : AppState} : Reachable s → Reachable (startMeeting s)
  | tick {s : AppState} : Reachable s → Reachable (scheduledTick s)
  | agenda {s : AppState} (res : GenResult) : Reachable s →
      Reachable (resumeAgenda res s)
  | turn {s : AppState} (res : GenResult) : Reachable s →
      Reachable (resumeTurn res s)
  | summary {s : AppState} (res : GenResult) : Reachable s →
      Reachable (resumeSummary res s)
  | send {s : AppState} (text : String) : Reachable s →
      Reachable (handleSendMessage text s)
  | stop {s : AppState} : Reachable s → Reachable (handleStopMeeting s)
  | resetMeeting {s : AppState} : Reachable s → Reachable (handleResetMeeting s)
  | cooldown {s : AppState} (id : String) : Reachable s →
      Reachable (cooldownFire id s)

/-! ## Predicates used in the statements -/

/-- A transcript entry is a persona turn iff it is neither an orchestrator
notice nor a user interjection (types.ts distinguishes the three kinds by
the `isOrchestrator` / `isUser` flags). -/
def isPersonaTurnMsg (msg : ChatMessage) : Bool :=
  !msg.isOrchestrator && !msg.isUser

/-- A transcript entry is a per-agenda-topic notice iff it is an
orchestrator notice whose text is of the shape produced by part_001 line
211 (no other orchestrator notice of the app starts this way). -/
def isTopicNoticeMsg (msg : ChatMessage) : Bool :=
  msg.isOrchestrator && "Let's now discuss: **".toList.isPrefixOf msg.text.toList

/-- The number of pending (thinking) entries in the transcript. -/
def thinkingCount (history : List ChatMessage) : Nat :=
  history.countP (fun msg => msg.isThinking)

/-- The pending-entry invariant, strengthened for the induction: in phase
`awaitTurn` with the meeting state intact the transcript ends in the
pending entry recorded in `pendingTurn`; a pending entry is never anywhere
but at the tail; outside a pending generation call there is none; and
whenever a pending entry exists the send-message guard is closed
(`isWaitingForAI`, unless the meeting was already stopped). -/
def PendingInvariant (s : AppState) : Prop :=
  thinkingCount s.chatHistory ≤ 1 ∧
    (∀ msg ∈ s.chatHistory, msg.isThinking = true →
      s.chatHistory.getLast? = some msg) ∧
    (thinkingCount s.chatHistory = 1 →
      (s.isWaitingForAI = true ∨ s.isMeetingRunning = false)) ∧
    ((s.phase = Phase.awaitAgenda ∨ s.phase = Phase.awaitSummary) →
      thinkingCount s.chatHistory = 0) ∧
    (s.phase = Phase.awaitTurn → s.pendingTurn.isSome = true)

/-! ## Credential pool lemmas -/

/-- With a non-empty snapshot and an in-range cursor, `getNextKey` returns
the key at the cursor and advances the cursor cyclically. -/
theorem getNextKey_of_lt (m : ApiKeyManager) (h : m.currentIndex < m.keys.length) :
    m.getNextKey =
      (some (m.keys.get ⟨m.currentIndex, h⟩),
       { m with currentIndex := (m.currentIndex + 1) % m.keys.length }) := by
  have hne : m.getAvailableKeyCount ≠ 0 := by
    simp only [ApiKeyManager.getAvailableKeyCount]
    omega
  simp [ApiKeyManager.getNextKey, hne, List.getElem?_eq_getElem h]

/-- With an empty snapshot, `getNextKey` returns none and leaves the
manager unchanged. -/
theorem getNextKey_of_empty (m : ApiKeyManager) (h : m.keys.length = 0) :
    m.getNextKey = (none, m) := by
  simp [ApiKeyManager.getNextKey, ApiKeyManager.getAvailableKeyCount, h]

/-- Closed form of the draw sequence: with cursor `p < c`, the `i`-th of
`n` successive `getNextKey` calls returns the snapshot entry at position
`(p + i) % c`.  The snapshot itself never changes. -/
theorem drawnKeys_closed (n : Nat) (m : ApiKeyManager)
    (h : m.currentIndex < m.keys.length) :
    drawnKeys n m =
      (List.range n).map (fun i => m.keys[(m.currentIndex + i) % m.keys.length]?) := by
  induction n generalizing m with
  | zero => simp [drawnKeys]
  | succ n ih =>
      have hc : 0 < m.keys.length := Nat.lt_of_le_of_lt (Nat.zero_le _) h
      rw [drawnKeys, getNextKey_of_lt m h]
      have h' : ((m.currentIndex + 1) % m.keys.length) < m.keys.length :=
        Nat.mod_lt _ hc
      rw [List.range_succ_eq_map, List.map_cons, List.map_map]
      refine List.cons_eq_cons.mpr ⟨?_, ?_⟩
      · show some (m.keys.get ⟨m.currentIndex, h⟩) =
          m.keys[(m.currentIndex + 0) % m.keys.length]?
        rw [Nat.add_zero, Nat.mod_eq_of_lt h, List.getElem?_eq_getElem h]
        rfl
      · show drawnKeys n { m with currentIndex := (m.currentIndex + 1) % m.keys.length } = _
        rw [ih _ h']
        apply List.map_congr_left
        intro i _
        simp only [Function.comp_apply]
        congr 1
        rw [Nat.mod_add_mod]
        congr 1
        omega

/-- With an empty snapshot every draw returns none. -/
theorem drawnKeys_of_empty (n : Nat) (m : ApiKeyManager) (h : m.keys.length = 0) :
    drawnKeys n m = List.replicate n none := by
  induction n with
  | zero => simp [drawnKeys]
  | succ n ih =>
      rw [drawnKeys, getNextKey_of_empty m h, List.replicate_succ]
      exact congrArg _ (ih)

/-- C10 (invariants, implicit): the credential pool used by a generation
gateway instance is a snapshot fixed at creation: every key a
`getNextKey` draw ever returns comes from the caller's list and had
status `active` and a non-whitespace value at creation time, and the
usable count is the length of that creation-time filter (so an
active-but-blank key is excluded, and status changes made after creation
cannot add keys to or remove keys from the rotation, which reads only the
snapshot). -/
theorem keyManager_snapshot_invariant (keys : List ApiKey) (n : Nat) (k : ApiKey)
    (hk : some k ∈ drawnKeys n (mkApiKeyManager keys)) :
    (k ∈ keys ∧ k.status = ApiKeyStatus.active ∧ jsTrim k.value ≠ "") ∧
      (mkApiKeyManager keys).getAvailableKeyCount = (keys.filter usableKey).length := by
  refine ⟨?_, rfl⟩
  rcases Nat.eq_zero_or_pos (keys.filter usableKey).length with h0 | hpos
  · rw [drawnKeys_of_empty n _ h0] at hk
    have := List.eq_of_mem_replicate hk
    exact absurd this (by simp)
  · have hcur : (mkApiKeyManager keys).currentIndex < (mkApiKeyManager keys).keys.length := by
      simpa [mkApiKeyManager] using hpos
    rw [drawnKeys_closed n _ hcur] at hk
    rcases List.mem_map.mp hk with ⟨i, _, hi⟩
    have hlt : ((mkApiKeyManager keys).currentIndex + i) % (mkApiKeyManager keys).keys.length <
        (mkApiKeyManager keys).keys.length := Nat.mod_lt _ (by simpa [mkApiKeyManager] using hpos)
    rw [List.getElem?_eq_getElem hlt, Option.some.injEq] at hi
    have hmem : k ∈ (mkApiKeyManager keys).keys := hi ▸ List.getElem_mem hlt
    have hmem' : k ∈ keys.filter usableKey := by
      simpa [mkApiKeyManager] using hmem
    rcases List.mem_filter.mp hmem' with ⟨hmemk, husable⟩
    have := of_decide_eq_true husable
    exact ⟨hmemk, this.1, this.2⟩

/-- Witness for `keyManager_snapshot_invariant`: a pool built from one
usable key, one active-but-whitespace key (excluded) and one rate-limited
key; the first draw returns the usable key. -/
theorem keyManager_snapshot_invariant_witness :
    (some (ApiKey.mk "a" "K1" ApiKeyStatus.active) ∈
        drawnKeys 1 (mkApiKeyManager
          [ApiKey.mk "a" "K1" ApiKeyStatus.active,
           ApiKey.mk "b" "   " ApiKeyStatus.active,
           ApiKey.mk "c" "K2" ApiKeyStatus.rateLimited])) ∧
      ((ApiKey.mk "a" "K1" ApiKeyStatus.active ∈
          [ApiKey.mk "a" "K1" ApiKeyStatus.active,
           ApiKey.mk "b" "   " ApiKeyStatus.active,
           ApiKey.mk "c" "K2" ApiKeyStatus.rateLimited] ∧
        (ApiKey.mk "a" "K1" ApiKeyStatus.active).status = ApiKeyStatus.active ∧
        jsTrim (ApiKey.mk "a" "K1" ApiKeyStatus.active).value ≠ "") ∧
      (mkApiKeyManager
          [ApiKey.mk "a" "K1" ApiKeyStatus.active,
           ApiKey.mk "b" "   " ApiKeyStatus.active,
           ApiKey.mk "c" "K2" ApiKeyStatus.rateLimited]).getAvailableKeyCount =
        ([ApiKey.mk "a" "K1" ApiKeyStatus.active,
          ApiKey.mk "b" "   " ApiKeyStatus.active,
          ApiKey.mk "c" "K2" ApiKeyStatus.rateLimited].filter usableKey).length) :=
  ⟨by decide, keyManager_snapshot_invariant _ 1 _ (by decide)⟩

/-- C4 counterexample: the claim says the usable subset is recomputed at
each `next()` call from current statuses, so a key throttled after a
previous call is skipped.  In the code the subset is a constructor-time
snapshot: with keys k1, k2 (both active at creation), after k1's status
changes to rate-limited in the app's key list, the third draw still
returns k1 — it is not skipped. -/
theorem pool_recompute_counterexample :
    drawnKeys 3 (mkApiKeyManager
        [ApiKey.mk "k1" "A" ApiKeyStatus.active, ApiKey.mk "k2" "B" ApiKeyStatus.active]) =
      [some (ApiKey.mk "k1" "A" ApiKeyStatus.active),
       some (ApiKey.mk "k2" "B" ApiKeyStatus.active),
       some (ApiKey.mk "k1" "A" ApiKeyStatus.active)] ∧
      ([ApiKey.mk "k1" "A" ApiKeyStatus.active,
        ApiKey.mk "k2" "B" ApiKeyStatus.active].map (fun k =>
          if k.id == "k1" then { k with status := ApiKeyStatus.rateLimited } else k)).find?
        (fun k => k.id == "k1") =
        some (ApiKey.mk "k1" "A" ApiKeyStatus.rateLimited) := by
  decide

/-- C4 amended: `next()` rotates round-robin over the snapshot of keys
filtered once at manager creation (those active with a non-blank value),
in their original relative order; the subset is not recomputed per call,
so later status changes neither skip nor reorder anything — the `i`-th
draw is always snapshot position `i mod c`. -/
theorem pool_roundRobin_over_snapshot (keys : List ApiKey) (n : Nat)
    (h : 0 < (keys.filter usableKey).length) :
    drawnKeys n (mkApiKeyManager keys) =
      (List.range n).map
        (fun i => (keys.filter usableKey)[i % (keys.filter usableKey).length]?) := by
  have hcur : (mkApiKeyManager keys).currentIndex < (mkApiKeyManager keys).keys.length := by
    simpa [mkApiKeyManager] using h
  rw [drawnKeys_closed n _ hcur]
  apply List.map_congr_left
  intro i _
  simp [mkApiKeyManager]

/-- Witness for `pool_roundRobin_over_snapshot`: two usable keys, five
draws cycle k1, k2, k1, k2, k1. -/
theorem pool_roundRobin_over_snapshot_witness :
    0 < ([ApiKey.mk "k1" "A" ApiKeyStatus.active,
          ApiKey.mk "k2" "B" ApiKeyStatus.active].filter usableKey).length ∧
      drawnKeys 5 (mkApiKeyManager
          [ApiKey.mk "k1" "A" ApiKeyStatus.active,
           ApiKey.mk "k2" "B" ApiKeyStatus.active]) =
        (List.range 5).map (fun i =>
          ([ApiKey.mk "k1" "A" ApiKeyStatus.active,
            ApiKey.mk "k2" "B" ApiKeyStatus.active].filter usableKey)[i %
            ([ApiKey.mk "k1" "A" ApiKeyStatus.active,
              ApiKey.mk "k2" "B" ApiKeyStatus.active].filter usableKey).length]?) :=
  ⟨by decide, pool_roundRobin_over_snapshot _ 5 (by decide)⟩

/-! ## Rotation fairness -/

/-- Counting residues: for `j < c`, among `0, ..., k-1` exactly `k / c`
(plus one when `j < k % c`) numbers have residue `j` modulo `c`. -/
theorem countP_mod_range (c : Nat) (hc : 0 < c) (j : Nat) (hj : j < c) (k : Nat) :
    (List.range k).countP (fun i => decide (i % c = j)) =
      k / c + (if j < k % c then 1 else 0) := by
  induction k with
  | zero => simp
  | succ k ih =>
      rw [List.range_succ, List.countP_append, ih]
      have h1 : k % c < c := Nat.mod_lt _ hc
      have h2 : c * (k / c) + k % c = k := Nat.div_add_mod k c
      have hsingle : (List.countP (fun i => decide (i % c = j)) [k]) =
          if k % c = j then 1 else 0 := by
        by_cases hkj : k % c = j <;> simp [hkj]
      rw [hsingle]
      rcases Nat.lt_or_ge (k % c + 1) c with h | h
      · have e0 : k + 1 = (k % c + 1) + c * (k / c) := by omega
        have e1 : (k + 1) / c = k / c := by
          rw [e0, Nat.add_mul_div_left _ _ hc, Nat.div_eq_of_lt h, Nat.zero_add]
        have e2 : (k + 1) % c = k % c + 1 := by
          rw [e0, Nat.add_mul_mod_self_left, Nat.mod_eq_of_lt h]
        rw [e1, e2]
        by_cases hkj : k % c = j
        · rw [if_pos hkj, if_neg (by omega), if_pos (by omega)]
        · rw [if_neg hkj]
          by_cases hlt : j < k % c
          · rw [if_pos hlt, if_pos (by omega)]
          · rw [if_neg hlt, if_neg (by omega)]
      · have hc' : k % c + 1 = c := by omega
        have e0 : k + 1 = c * (k / c + 1) := by rw [Nat.mul_succ]; omega
        have e1 : (k + 1) / c = k / c + 1 := by
          rw [e0, Nat.mul_div_cancel_left _ hc]
        have e2 : (k + 1) % c = 0 := by
          rw [e0, Nat.mul_mod_right]
        rw [e1, e2]
        by_cases hkj : k % c = j
        · rw [if_pos hkj, if_neg (by omega), if_neg (by omega)]
        · rw [if_neg hkj, if_pos (by omega), if_neg (by omega)]

/-- The ceiling `(k + c - 1) / c` equals `k / c` when `c` divides `k`, and
`k / c + 1` otherwise. -/
theorem ceil_div_cases (c k : Nat) (hc : 0 < c) :
    (k + c - 1) / c = k / c + (if k % c = 0 then 0 else 1) := by
  have h1 : k % c < c := Nat.mod_lt _ hc
  have h2 : c * (k / c) + k % c = k := Nat.div_add_mod k c
  by_cases h : k % c = 0
  · have e0 : k + c - 1 = (c - 1) + c * (k / c) := by omega
    rw [if_pos h, e0, Nat.add_mul_div_left _ _ hc,
        Nat.div_eq_of_lt (by omega), Nat.zero_add]
    omega
  · have e0 : k + c - 1 = (k % c - 1) + c * (k / c + 1) := by
      rw [Nat.mul_succ]; omega
    rw [if_neg h, e0, Nat.add_mul_div_left _ _ hc, Nat.div_eq_of_lt (by omega),
        Nat.zero_add]

/-- A `generateContentWithRetry` call whose first attempt succeeds draws
exactly one key — the one at the cursor — and advances the cursor by one
(cyclically). -/
theorem generateContentWithRetry_ok_first (mgr : ApiKeyManager) (t : String)
    (hcur : mgr.currentIndex < mgr.keys.length) :
    generateContentWithRetry mgr (fun _ => AttemptResult.ok t) (fun _ => false) =
      (GenOutcome.success t,
       { mgr with currentIndex := (mgr.currentIndex + 1) % mgr.keys.length },
       [mgr.keys.get ⟨mgr.currentIndex, hcur⟩]) := by
  have hc : 0 < mgr.keys.length := Nat.lt_of_le_of_lt (Nat.zero_le _) hcur
  have hne : mgr.getAvailableKeyCount ≠ 0 := by
    simp only [ApiKeyManager.getAvailableKeyCount]; omega
  rw [generateContentWithRetry]
  simp only [if_neg hne]
  rcases Nat.exists_eq_succ_of_ne_zero hne with ⟨rem, hrem⟩
  rw [show mgr.getAvailableKeyCount = rem + 1 from hrem, retryAttempts,
      getNextKey_of_lt mgr hcur]
  simp

/-- Closed form of `successRun`: with cursor `p < c`, the `i`-th of `n`
first-attempt-successful calls selects snapshot position `(p + i) % c`,
and the final cursor is `(p + n) % c`. -/
theorem successRun_closed (texts : Nat → String) (n : Nat) (mgr : ApiKeyManager)
    (hcur : mgr.currentIndex < mgr.keys.length) :
    successRun texts n mgr =
      ((List.range n).map (fun i =>
          mgr.keys.get ⟨(mgr.currentIndex + i) % mgr.keys.length,
            Nat.mod_lt _ (Nat.lt_of_le_of_lt (Nat.zero_le _) hcur)⟩),
       { mgr with currentIndex := (mgr.currentIndex + n) % mgr.keys.length }) := by
  induction n generalizing mgr with
  | zero =>
      rw [successRun]
      simp [Nat.mod_eq_of_lt hcur]
  | succ n ih =>
      have hc : 0 < mgr.keys.length := Nat.lt_of_le_of_lt (Nat.zero_le _) hcur
      have h' : ((mgr.currentIndex + 1) % mgr.keys.length) < mgr.keys.length :=
        Nat.mod_lt _ hc
      rw [successRun, generateContentWithRetry_ok_first mgr (texts n) hcur]
      simp only
      rw [ih _ h']
      rw [List.range_succ_eq_map, List.map_cons, List.map_map]
      refine Prod.ext ?_ ?_
      · show _ ++ _ = _ :: _
        rw [List.singleton_append]
        refine List.cons_eq_cons.mpr ⟨?_, ?_⟩
        · congr 1
          apply Fin.ext
          show mgr.currentIndex = (mgr.currentIndex + 0) % mgr.keys.length
          rw [Nat.add_zero, Nat.mod_eq_of_lt hcur]
        · apply List.map_congr_left
          intro i _
          simp only [Function.comp_apply]
          congr 1
          apply Fin.ext
          show ((mgr.currentIndex + 1) % mgr.keys.length + i) % mgr.keys.length =
            (mgr.currentIndex + (i + 1)) % mgr.keys.length
          rw [Nat.mod_add_mod]
          congr 1
          omega
      · show ({ mgr with currentIndex :=
              ((mgr.currentIndex + 1) % mgr.keys.length + n) % mgr.keys.length } :
                ApiKeyManager) =
            { mgr with currentIndex := (mgr.currentIndex + (n + 1)) % mgr.keys.length }
        congr 1
        rw [Nat.mod_add_mod]
        congr 1
        omega

/-- C9 (algebraic): rotation fairness.  Across `k` consecutive
`generateContentWithRetry` calls that each succeed on their first attempt,
run against a freshly created pool with `c` usable credentials (no status
changes can intervene: the pool is a snapshot), each credential is
selected either `⌊k / c⌋` or `⌈k / c⌉ = (k + c - 1) / c` times. -/
theorem rotation_fairness (keys : List ApiKey) (texts : Nat → String) (k j : Nat)
    (hnd : (keys.filter usableKey).Nodup)
    (hj : j < (keys.filter usableKey).length) :
    ((successRun texts k (mkApiKeyManager keys)).1.count
        ((keys.filter usableKey).get ⟨j, hj⟩) = k / (keys.filter usableKey).length ∨
      (successRun texts k (mkApiKeyManager keys)).1.count
        ((keys.filter usableKey).get ⟨j, hj⟩) =
        (k + (keys.filter usableKey).length - 1) / (keys.filter usableKey).length) := by
  have hc : 0 < (keys.filter usableKey).length := Nat.lt_of_le_of_lt (Nat.zero_le _) hj
  have hcur : (mkApiKeyManager keys).currentIndex < (mkApiKeyManager keys).keys.length := hc
  rw [successRun_closed texts k _ hcur]
  have hcnt :
      (((List.range k).map (fun i =>
          (mkApiKeyManager keys).keys.get
            ⟨((mkApiKeyManager keys).currentIndex + i) % (mkApiKeyManager keys).keys.length,
             Nat.mod_lt _ (Nat.lt_of_le_of_lt (Nat.zero_le _) hcur)⟩)).count
        ((keys.filter usableKey).get ⟨j, hj⟩)) =
      (List.range k).countP (fun i => decide (i % (keys.filter usableKey).length = j)) := by
    rw [List.count, List.countP_map]
    refine List.countP_congr ?_
    intro i _
    show ((keys.filter usableKey).get ⟨(0 + i) % (keys.filter usableKey).length,
        Nat.mod_lt _ hc⟩ == (keys.filter usableKey).get ⟨j, hj⟩) = true ↔
      decide (i % (keys.filter usableKey).length = j) = true
    rw [beq_iff_eq, hnd.get_inj_iff, Fin.mk.injEq, Nat.zero_add, decide_eq_true_eq]
  rw [hcnt, countP_mod_range _ hc _ hj k]
  rw [ceil_div_cases _ k hc]
  by_cases h0 : k % (keys.filter usableKey).length = 0
  · left; rw [h0]; simp
  · by_cases hlt : j < k % (keys.filter usableKey).length
    · right; rw [if_pos hlt, if_neg h0]
    · left; rw [if_neg hlt, Nat.add_zero]

/-- Witness for `rotation_fairness`: three usable keys, four calls — the
first key is selected either once (the floor) or twice (the ceiling). -/
theorem rotation_fairness_witness :
    ([ApiKey.mk "a" "K1" ApiKeyStatus.active, ApiKey.mk "b" "K2" ApiKeyStatus.active,
       ApiKey.mk "c" "K3" ApiKeyStatus.active].filter usableKey).Nodup ∧
      ((successRun (fun _ => "hi") 4 (mkApiKeyManager
          [ApiKey.mk "a" "K1" ApiKeyStatus.active, ApiKey.mk "b" "K2" ApiKeyStatus.active,
           ApiKey.mk "c" "K3" ApiKeyStatus.active])).1.count
          (([ApiKey.mk "a" "K1" ApiKeyStatus.active, ApiKey.mk "b" "K2" ApiKeyStatus.active,
             ApiKey.mk "c" "K3" ApiKeyStatus.active].filter usableKey).get
            ⟨0, by decide⟩) =
          4 / ([ApiKey.mk "a" "K1" ApiKeyStatus.active, ApiKey.mk "b" "K2" ApiKeyStatus.active,
               ApiKey.mk "c" "K3" ApiKeyStatus.active].filter usableKey).length ∨
        (successRun (fun _ => "hi") 4 (mkApiKeyManager
          [ApiKey.mk "a" "K1" ApiKeyStatus.active, ApiKey.mk "b" "K2" ApiKeyStatus.active,
           ApiKey.mk "c" "K3" ApiKeyStatus.active])).1.count
          (([ApiKey.mk "a" "K1" ApiKeyStatus.active, ApiKey.mk "b" "K2" ApiKeyStatus.active,
             ApiKey.mk "c" "K3" ApiKeyStatus.active].filter usableKey).get
            ⟨0, by decide⟩) =
          (4 + ([ApiKey.mk "a" "K1" ApiKeyStatus.active, ApiKey.mk "b" "K2" ApiKeyStatus.active,
                ApiKey.mk "c" "K3" ApiKeyStatus.active].filter usableKey).length - 1) /
            ([ApiKey.mk "a" "K1" ApiKeyStatus.active, ApiKey.mk "b" "K2" ApiKeyStatus.active,
              ApiKey.mk "c" "K3" ApiKeyStatus.active].filter usableKey).length) :=
  ⟨by decide, rotation_fairness _ (fun _ => "hi") 4 0 (by decide) (by decide)⟩

/-! ## Failure classification (C2, C5) -/

/-- C2 amended: when a generation attempt fails with an error not
classified as rate/quota limiting, the call fails immediately with a
key-identifying `RateLimitError` (`GenOutcome.keyInvalid`) after that one
attempt — no further credential is attempted, whatever the remaining
budget `rem` — and the App-level catch then sets the failing credential's
status to `rate-limited` (not a terminal rejected status) and schedules a
cooldown that returns it to `active` with no external re-verification. -/
theorem non_quota_failure_fails_fast (outcome : Nat → AttemptResult)
    (aborted : Nat → Bool) (rem i : Nat) (mgr : ApiKeyManager) (k' : ApiKey)
    (msg : String) (hk : mgr.getNextKey.1 = some k') (hab : aborted i = false)
    (hout : outcome i = AttemptResult.fail msg)
    (hnr : isRateLimitMessage msg = false)
    (s : AppState) (emsg fkv : String) (k0 : ApiKey)
    (hphase : s.phase = Phase.awaitTurn)
    (hfind : s.apiKeys.find? (fun k => k.value == fkv) = some k0) :
    retryAttempts outcome aborted (rem + 1) i mgr =
      (GenOutcome.keyInvalid k'.value, mgr.getNextKey.2, [k']) ∧
    (∀ k ∈ (resumeTurn (GenResult.rateLimitError emsg fkv) s).apiKeys,
        k.id = k0.id → k.status = ApiKeyStatus.rateLimited) ∧
    k0.id ∈ (resumeTurn (GenResult.rateLimitError emsg fkv) s).cooldownPending ∧
    (∀ k ∈ (cooldownFire k0.id (resumeTurn (GenResult.rateLimitError emsg fkv) s)).apiKeys,
        k.id = k0.id → k.status = ApiKeyStatus.active) := by
  have hresume : resumeTurn (GenResult.rateLimitError emsg fkv) s =
      meetingErrorTail (GenResult.rateLimitError emsg fkv) s := by
    rw [resumeTurn]
    simp only [hphase]
    simp only [ne_eq, not_true_eq_false, if_false]
    rintro text ⟨⟩
  have hkeys : (meetingErrorTail (GenResult.rateLimitError emsg fkv) s).apiKeys =
      s.apiKeys.map (fun k =>
        if k.id == k0.id then { k with status := ApiKeyStatus.rateLimited } else k) := by
    rw [meetingErrorTail]
    simp only [hfind]
  have hcool : (meetingErrorTail (GenResult.rateLimitError emsg fkv) s).cooldownPending =
      s.cooldownPending ++ [k0.id] := by
    rw [meetingErrorTail]
    simp only [hfind]
  refine ⟨?_, ?_, ?_, ?_⟩
  · rw [retryAttempts]
    simp only [hk, hab, hout, hnr]
    simp
  · intro k hkmem hkid
    rw [hresume, hkeys] at hkmem
    rcases List.mem_map.mp hkmem with ⟨a, _, ha⟩
    subst ha
    by_cases hid : a.id == k0.id
    · simp [hid]
    · rw [if_neg (by simpa using hid)] at hkid ⊢
      exact absurd hkid (by simpa using hid)
  · rw [hresume, hcool]
    simp
  · intro k hkmem hkid
    have hmem0 : k0.id ∈ (resumeTurn (GenResult.rateLimitError emsg fkv) s).cooldownPending := by
      rw [hresume, hcool]; simp
    rw [cooldownFire, if_pos hmem0] at hkmem
    simp only [List.mem_map] at hkmem
    rcases hkmem with ⟨a, _, ha⟩
    subst ha
    by_cases hid : a.id == k0.id
    · simp [hid]
    · rw [if_neg (by simpa using hid)] at hkid ⊢
      exact absurd hkid (by simpa using hid)

/-- Witness for `non_quota_failure_fails_fast`: two usable keys, the
first attempt fails with "boom" (not quota-classified); the call returns
`keyInvalid` for key K1 with one attempt although a second key remained,
and the handler marks k1 rate-limited, then the cooldown restores it. -/
theorem non_quota_failure_fails_fast_witness :
    retryAttempts (fun _ => AttemptResult.fail "boom") (fun _ => false) (1 + 1) 0
        (mkApiKeyManager [ApiKey.mk "k1" "K1" ApiKeyStatus.active,
          ApiKey.mk "k2" "K2" ApiKeyStatus.active]) =
      (GenOutcome.keyInvalid (ApiKey.mk "k1" "K1" ApiKeyStatus.active).value,
       (mkApiKeyManager [ApiKey.mk "k1" "K1" ApiKeyStatus.active,
          ApiKey.mk "k2" "K2" ApiKeyStatus.active]).getNextKey.2,
       [ApiKey.mk "k1" "K1" ApiKeyStatus.active]) ∧
    (∀ k ∈ (resumeTurn (GenResult.rateLimitError "boom" "K1")
        { initApp [] "T" [ApiKey.mk "k1" "K1" ApiKeyStatus.active,
            ApiKey.mk "k2" "K2" ApiKeyStatus.active] with
          phase := Phase.awaitTurn }).apiKeys,
        k.id = (ApiKey.mk "k1" "K1" ApiKeyStatus.active).id →
          k.status = ApiKeyStatus.rateLimited) ∧
    (ApiKey.mk "k1" "K1" ApiKeyStatus.active).id ∈
      (resumeTurn (GenResult.rateLimitError "boom" "K1")
        { initApp [] "T" [ApiKey.mk "k1" "K1" ApiKeyStatus.active,
            ApiKey.mk "k2" "K2" ApiKeyStatus.active] with
          phase := Phase.awaitTurn }).cooldownPending ∧
    (∀ k ∈ (cooldownFire (ApiKey.mk "k1" "K1" ApiKeyStatus.active).id
        (resumeTurn (GenResult.rateLimitError "boom" "K1")
          { initApp [] "T" [ApiKey.mk "k1" "K1" ApiKeyStatus.active,
              ApiKey.mk "k2" "K2" ApiKeyStatus.active] with
            phase := Phase.awaitTurn })).apiKeys,
        k.id = (ApiKey.mk "k1" "K1" ApiKeyStatus.active).id →
          k.status = ApiKeyStatus.active) :=
  non_quota_failure_fails_fast _ _ 1 0 _ _ "boom" (by decide) rfl rfl (by decide)
    _ "boom" "K1" _ rfl (by decide)

/-- C2 counterexample: the claim says a non-quota failure sets the
credential's status to rejected, terminal until external re-verification.
In the code the App handler sets it to `rate-limited` (not `invalid`), and
the scheduled 60-second cooldown returns it to `active` with no external
re-verification. -/
theorem credential_rejected_counterexample :
    (resumeTurn (GenResult.rateLimitError "boom" "K1")
        { initApp [] "T" [ApiKey.mk "k1" "K1" ApiKeyStatus.active] with
          phase := Phase.awaitTurn }).apiKeys =
      [ApiKey.mk "k1" "K1" ApiKeyStatus.rateLimited] ∧
    ApiKeyStatus.rateLimited ≠ ApiKeyStatus.invalid ∧
    (cooldownFire "k1" (resumeTurn (GenResult.rateLimitError "boom" "K1")
        { initApp [] "T" [ApiKey.mk "k1" "K1" ApiKeyStatus.active] with
          phase := Phase.awaitTurn })).apiKeys =
      [ApiKey.mk "k1" "K1" ApiKeyStatus.active] := by
  decide

/-- C5 amended: when a generation attempt fails with a rate/quota-classified
error the call continues to the next attempt with the next credential
rather than failing — but no status is written anywhere by the generation
call itself (the failing credential is left unchanged; in particular a call
that ultimately succeeds leaves every key's status as it was). -/
theorem quota_failure_continues (outcome : Nat → AttemptResult)
    (aborted : Nat → Bool) (rem i : Nat) (mgr : ApiKeyManager) (k' : ApiKey)
    (msg : String) (hk : mgr.getNextKey.1 = some k') (hab : aborted i = false)
    (hout : outcome i = AttemptResult.fail msg)
    (hr : isRateLimitMessage msg = true) (s : AppState) (t : String) :
    retryAttempts outcome aborted (rem + 1) i mgr =
      ((retryAttempts outcome aborted rem (i + 1) mgr.getNextKey.2).1,
       (retryAttempts outcome aborted rem (i + 1) mgr.getNextKey.2).2.1,
       k' :: (retryAttempts outcome aborted rem (i + 1) mgr.getNextKey.2).2.2) ∧
    (resumeTurn (GenResult.ok t) s).apiKeys = s.apiKeys := by
  constructor
  · rw [retryAttempts]
    simp only [hk, hab, hout, hr]
    simp
  · rw [resumeTurn]
    by_cases hp : s.phase ≠ Phase.awaitTurn
    · rw [if_pos hp]
    · rw [if_neg hp]
      cases hpt : s.pendingTurn <;> simp [hpt]

/-- Witness for `quota_failure_continues`: a 429 on the first key, then
success on the second. -/
theorem quota_failure_continues_witness :
    retryAttempts
        (fun i => if i = 0 then AttemptResult.fail "429 Too Many Requests"
          else AttemptResult.ok "hi") (fun _ => false) (1 + 1) 0
        (mkApiKeyManager [ApiKey.mk "k1" "K1" ApiKeyStatus.active,
          ApiKey.mk "k2" "K2" ApiKeyStatus.active]) =
      ((retryAttempts (fun i => if i = 0 then AttemptResult.fail "429 Too Many Requests"
          else AttemptResult.ok "hi") (fun _ => false) 1 (0 + 1)
          (mkApiKeyManager [ApiKey.mk "k1" "K1" ApiKeyStatus.active,
            ApiKey.mk "k2" "K2" ApiKeyStatus.active]).getNextKey.2).1,
       (retryAttempts (fun i => if i = 0 then AttemptResult.fail "429 Too Many Requests"
          else AttemptResult.ok "hi") (fun _ => false) 1 (0 + 1)
          (mkApiKeyManager [ApiKey.mk "k1" "K1" ApiKeyStatus.active,
            ApiKey.mk "k2" "K2" ApiKeyStatus.active]).getNextKey.2).2.1,
       ApiKey.mk "k1" "K1" ApiKeyStatus.active ::
        (retryAttempts (fun i => if i = 0 then AttemptResult.fail "429 Too Many Requests"
          else AttemptResult.ok "hi") (fun _ => false) 1 (0 + 1)
          (mkApiKeyManager [ApiKey.mk "k1" "K1" ApiKeyStatus.active,
            ApiKey.mk "k2" "K2" ApiKeyStatus.active]).getNextKey.2).2.2) ∧
    (resumeTurn (GenResult.ok "hi")
        { initApp [] "T" [ApiKey.mk "k1" "K1" ApiKeyStatus.active,
            ApiKey.mk "k2" "K2" ApiKeyStatus.active] with
          phase := Phase.awaitTurn }).apiKeys =
      ({ initApp [] "T" [ApiKey.mk "k1" "K1" ApiKeyStatus.active,
            ApiKey.mk "k2" "K2" ApiKeyStatus.active] with
          phase := Phase.awaitTurn } : AppState).apiKeys :=
  quota_failure_continues _ _ 1 0 _ _ "429 Too Many Requests" (by decide) rfl rfl
    (by decide) _ "hi"

/-- C5 counterexample: the claim says the credential used in a
rate-limited attempt "has its status set to throttled".  Here the whole
call (429 on k1, then success on k2) completes and k1's status is still
`active` in the app's key list — nothing was marked during the call. -/
theorem throttled_marking_counterexample :
    generateContentWithRetry
        (mkApiKeyManager [ApiKey.mk "k1" "K1" ApiKeyStatus.active,
          ApiKey.mk "k2" "K2" ApiKeyStatus.active])
        (fun i => if i = 0 then AttemptResult.fail "429 Too Many Requests"
          else AttemptResult.ok "hi") (fun _ => false) =
      (GenOutcome.success "hi",
       mkApiKeyManager [ApiKey.mk "k1" "K1" ApiKeyStatus.active,
         ApiKey.mk "k2" "K2" ApiKeyStatus.active],
       [ApiKey.mk "k1" "K1" ApiKeyStatus.active,
        ApiKey.mk "k2" "K2" ApiKeyStatus.active]) ∧
    (resumeTurn (GenResult.ok "hi")
        { initApp [] "T" [ApiKey.mk "k1" "K1" ApiKeyStatus.active,
            ApiKey.mk "k2" "K2" ApiKeyStatus.active] with
          phase := Phase.awaitTurn }).apiKeys =
      [ApiKey.mk "k1" "K1" ApiKeyStatus.active,
       ApiKey.mk "k2" "K2" ApiKeyStatus.active] := by
  decide

/-! ## Starting a meeting (C3) -/

/-- C3: a Start click is rejected synchronously — the state is completely
unchanged: no reset, no opening notice, no scheduled tick — when the
persona list is empty, the topic is blank, or no credential has status
`active`; otherwise (meeting not already running, not mid-generation) the
meeting state is reset, the transcript becomes exactly the opening notice,
and the inter-turn timer guard holds so the first tick is scheduled. -/
theorem start_meeting_preconditions (s : AppState) :
    ((s.personas = [] ∨ jsTrim s.meetingTopic = "" ∨
        (∀ k ∈ s.apiKeys, k.status ≠ ApiKeyStatus.active)) →
      startMeeting s = s) ∧
    ((0 < s.personas.length ∧ 0 < (jsTrim s.meetingTopic).length ∧
        (∃ k ∈ s.apiKeys, k.status = ApiKeyStatus.active) ∧
        s.isMeetingRunning = false ∧ s.isWaitingForAI = false) →
      ((startMeeting s).isMeetingRunning = true ∧
        (startMeeting s).chatHistory = [createOrchestratorMessage
          "The meeting will now begin. The AI Orchestrator is generating an agenda..."] ∧
        (startMeeting s).agenda = [] ∧
        (startMeeting s).currentAgendaIndex = 0 ∧
        (startMeeting s).currentSpeakerIndex = -1 ∧
        (startMeeting s).userIntervention = none ∧
        (startMeeting s).aborted = false ∧
        (startMeeting s).error = none ∧
        tickGuard (startMeeting s) = true)) := by
  constructor
  · intro h
    rw [startMeeting]
    rw [if_neg ?_]
    rw [canStartMeeting]
    rcases h with h | h | h
    · simp [h]
    · simp [h]
    · have : s.apiKeys.any (fun k => decide (k.status = ApiKeyStatus.active)) = false := by
        rw [List.any_eq_false]
        intro k hk
        simp [h k hk]
      simp [this]
  · rintro ⟨hp, ht, ⟨k0, hk0, hk0s⟩, hrun, hwait⟩
    have hany : s.apiKeys.any (fun k => decide (k.status = ApiKeyStatus.active)) = true := by
      rw [List.any_eq_true]
      exact ⟨k0, hk0, by simp [hk0s]⟩
    have hcan : canStartMeeting s = true := by
      rw [canStartMeeting, hany]
      simp [hp, ht]
    have hstart : startMeeting s = handleStartMeeting s := by
      rw [startMeeting, if_pos hcan]
    have hmain : handleStartMeeting s =
        { s with error := none,
                 chatHistory := [createOrchestratorMessage
                   "The meeting will now begin. The AI Orchestrator is generating an agenda..."],
                 aborted := false, hasController := true,
                 agenda := [], currentAgendaIndex := 0, currentSpeakerIndex := -1,
                 userIntervention := none,
                 isMeetingRunning := true } := by
      rw [handleStartMeeting]
      simp only [hany, hrun]
      simp
    rw [hstart, hmain]
    refine ⟨rfl, rfl, rfl, rfl, rfl, rfl, rfl, rfl, ?_⟩
    rw [tickGuard]
    simp [hwait]
    rfl

/-- Witness for `start_meeting_preconditions`: rejection with an empty
persona list, and a successful start with one persona, a topic and an
active key. -/
theorem start_meeting_preconditions_witness :
    (startMeeting (initApp [] "Topic" [ApiKey.mk "k" "K" ApiKeyStatus.active]) =
        initApp [] "Topic" [ApiKey.mk "k" "K" ApiKeyStatus.active]) ∧
    (startMeeting (initApp [Persona.mk "1" "Alice" "Director"] "Topic"
        [ApiKey.mk "k" "K" ApiKeyStatus.active])).isMeetingRunning = true ∧
    tickGuard (startMeeting (initApp [Persona.mk "1" "Alice" "Director"] "Topic"
        [ApiKey.mk "k" "K" ApiKeyStatus.active])) = true :=
  ⟨(start_meeting_preconditions _).1 (Or.inl rfl),
   ((start_meeting_preconditions _).2 ⟨by decide, by decide,
      ⟨ApiKey.mk "k" "K" ApiKeyStatus.active, by decide, rfl⟩, rfl, rfl⟩).1,
   ((start_meeting_preconditions _).2 ⟨by decide, by decide,
      ⟨ApiKey.mk "k" "K" ApiKeyStatus.active, by decide, rfl⟩, rfl, rfl⟩).2.2.2.2.2.2.2.2⟩

/-! ## Step equations for the event machine -/

/-- `handleSendMessage` when the meeting is running and no generation call
is awaited: store the interjection and append the user entry. -/
theorem handleSendMessage_active (s : AppState) (text : String)
    (hrun : s.isMeetingRunning = true) (hwait : s.isWaitingForAI = false) :
    handleSendMessage text s =
      { s with userIntervention := some text,
               chatHistory := s.chatHistory ++
                 [{ personaId := "user", personaName := "You",
                    personaRole := "Facilitator", text := text, isUser := true }] } := by
  rw [handleSendMessage, if_neg (by rw [hrun, hwait]; simp)]

/-- A scheduled tick that reaches the persona-turn/summary segment:
guard open, controller installed, not aborted, agenda already built. -/
theorem scheduledTick_toProceed (s : AppState)
    (hg : tickGuard s = true) (hctrl : s.hasController = true)
    (habort : s.aborted = false) (hagenda : s.agenda.length ≠ 0) :
    scheduledTick s = proceedToTurn s := by
  have hrun : s.isMeetingRunning = true := by
    rcases Bool.eq_false_or_eq_true s.isMeetingRunning with h | h
    · exact h
    · exact absurd hg (by rw [tickGuard, h]; simp)
  rw [scheduledTick, if_neg (by rw [hg]; simp), if_neg (by rw [hrun]; simp),
      if_neg (by rw [hctrl]; simp), if_neg (by rw [habort]; simp), if_neg hagenda]

/-- `proceedToTurn` in the no-wrap case (`currentSpeaker + 1` is still a
valid persona index and the agenda index is in range): append the pending
thinking entry for the next persona and start its `generateTurn`, logging
the current interjection. -/
theorem proceedToTurn_noWrap (s : AppState)
    (hA : s.currentAgendaIndex < s.agenda.length)
    (hS : s.currentSpeakerIndex + 1 < (s.personas.length : Int)) :
    proceedToTurn s =
      { s with currentSpeakerIndex := s.currentSpeakerIndex + 1,
               isWaitingForAI := true,
               chatHistory := s.chatHistory ++
                 [{ personaId :=
                      (s.personas.getD (s.currentSpeakerIndex + 1).toNat noPersona).id,
                    personaName :=
                      (s.personas.getD (s.currentSpeakerIndex + 1).toNat noPersona).name,
                    personaRole :=
                      (s.personas.getD (s.currentSpeakerIndex + 1).toNat noPersona).role,
                    text := "", isThinking := true }],
               pendingTurn := some
                 { personaId :=
                     (s.personas.getD (s.currentSpeakerIndex + 1).toNat noPersona).id,
                   personaName :=
                     (s.personas.getD (s.currentSpeakerIndex + 1).toNat noPersona).name,
                   personaRole :=
                     (s.personas.getD (s.currentSpeakerIndex + 1).toNat noPersona).role,
                   text := "", isThinking := true },
               turnCalls := s.turnCalls ++ [s.userIntervention],
               phase := Phase.awaitTurn } := by
  have hw : decide ((s.personas.length : Int) ≤ s.currentSpeakerIndex + 1) = false := by
    rw [decide_eq_false_iff_not]
    omega
  rw [proceedToTurn]
  simp only [hw, Bool.false_eq_true, if_false]
  rw [if_neg (by omega), if_neg (by omega)]

/-- `resumeTurn` on success: clear the interjection and replace the
pending entry (slice off the last entry, append the final one). -/
theorem resumeTurn_okEq (s : AppState) (t : String) (tm : ChatMessage)
    (hphase : s.phase = Phase.awaitTurn) (hpt : s.pendingTurn = some tm) :
    resumeTurn (GenResult.ok t) s =
      { s with userIntervention := none,
               chatHistory := s.chatHistory.dropLast ++
                 [{ tm with text := t, isThinking := false }],
               isWaitingForAI := false, phase := Phase.idle,
               pendingTurn := none } := by
  rw [resumeTurn]
  simp only [hphase, ne_eq, not_true_eq_false, if_false, hpt]

/-! ## Interjection lifecycle (C7) -/

/-- C7: submitting interjection `i1` and then `i2` before any turn runs
leaves only `i2` stored (last-write-wins, `i1` is never delivered);
the next persona turn's `generateTurn` call receives exactly `i2`
(logged once in `turnCalls`); after the turn completes the interjection
is cleared; and the following turn's call receives no interjection —
`i2` is delivered exactly once. -/
theorem interjection_consumed_once (s : AppState) (i1 i2 t : String)
    (hrun : s.isMeetingRunning = true) (hwait : s.isWaitingForAI = false)
    (hctrl : s.hasController = true) (habort : s.aborted = false)
    (hagenda : s.agenda.length ≠ 0)
    (hA : s.currentAgendaIndex < s.agenda.length)
    (hS : s.currentSpeakerIndex + 2 < (s.personas.length : Int)) :
    (handleSendMessage i2 (handleSendMessage i1 s)).userIntervention = some i2 ∧
    (scheduledTick (handleSendMessage i2 (handleSendMessage i1 s))).turnCalls =
      s.turnCalls ++ [some i2] ∧
    (resumeTurn (GenResult.ok t)
        (scheduledTick (handleSendMessage i2 (handleSendMessage i1 s)))).userIntervention =
      none ∧
    (scheduledTick (resumeTurn (GenResult.ok t)
        (scheduledTick (handleSendMessage i2 (handleSendMessage i1 s))))).turnCalls =
      s.turnCalls ++ [some i2] ++ [none] := by
  have hS1 : s.currentSpeakerIndex + 1 < (s.personas.length : Int) := by omega
  have hS2 : s.currentSpeakerIndex + 1 + 1 < (s.personas.length : Int) := by omega
  rw [handleSendMessage_active s i1 hrun hwait]
  rw [handleSendMessage_active _ i2 (by simp [hrun]) (by simp [hwait])]
  refine ⟨rfl, ?_, ?_, ?_⟩
  · rw [scheduledTick_toProceed _
          (by rw [tickGuard]; simp [hrun, hwait, List.getLast?_concat])
          (by exact hctrl) (by exact habort) (by exact hagenda),
        proceedToTurn_noWrap _ (by exact hA) (by exact hS1)]
  · rw [scheduledTick_toProceed _
          (by rw [tickGuard]; simp [hrun, hwait, List.getLast?_concat])
          (by exact hctrl) (by exact habort) (by exact hagenda),
        proceedToTurn_noWrap _ (by exact hA) (by exact hS1)]
    rw [resumeTurn_okEq _ t _ (by rfl) (by rfl)]
  · nth_rewrite 2 [scheduledTick_toProceed _
        (by rw [tickGuard]; simp [hrun, hwait, List.getLast?_concat])
        (by exact hctrl) (by exact habort) (by exact hagenda)]
    rw [proceedToTurn_noWrap _ (by exact hA) (by exact hS1)]
    rw [resumeTurn_okEq _ t _ (by rfl) (by rfl)]
    rw [scheduledTick_toProceed _
          (by rw [tickGuard]; simp [hrun, List.getLast?_concat])
          (by exact hctrl) (by exact habort) (by exact hagenda),
        proceedToTurn_noWrap _ (by exact hA) (by exact hS2)]

/-- Witness for `interjection_consumed_once`: a running three-persona
meeting mid-discussion; "first" is overwritten by "second", which is
delivered to exactly one turn. -/
theorem interjection_consumed_once_witness :
    (handleSendMessage "second" (handleSendMessage "first"
        { initApp [Persona.mk "1" "A" "r", Persona.mk "2" "B" "r", Persona.mk "3" "C" "r"]
            "T" [] with
          isMeetingRunning := true, hasController := true,
          agenda := ["A1", "A2"] })).userIntervention = some "second" ∧
    (scheduledTick (handleSendMessage "second" (handleSendMessage "first"
        { initApp [Persona.mk "1" "A" "r", Persona.mk "2" "B" "r", Persona.mk "3" "C" "r"]
            "T" [] with
          isMeetingRunning := true, hasController := true,
          agenda := ["A1", "A2"] }))).turnCalls =
      ({ initApp [Persona.mk "1" "A" "r", Persona.mk "2" "B" "r", Persona.mk "3" "C" "r"]
            "T" [] with
          isMeetingRunning := true, hasController := true,
          agenda := ["A1", "A2"] } : AppState).turnCalls ++ [some "second"] ∧
    (resumeTurn (GenResult.ok "reply")
        (scheduledTick (handleSendMessage "second" (handleSendMessage "first"
          { initApp [Persona.mk "1" "A" "r", Persona.mk "2" "B" "r", Persona.mk "3" "C" "r"]
              "T" [] with
            isMeetingRunning := true, hasController := true,
            agenda := ["A1", "A2"] })))).userIntervention = none ∧
    (scheduledTick (resumeTurn (GenResult.ok "reply")
        (scheduledTick (handleSendMessage "second" (handleSendMessage "first"
          { initApp [Persona.mk "1" "A" "r", Persona.mk "2" "B" "r", Persona.mk "3" "C" "r"]
              "T" [] with
            isMeetingRunning := true, hasController := true,
            agenda := ["A1", "A2"] }))))).turnCalls =
      ({ initApp [Persona.mk "1" "A" "r", Persona.mk "2" "B" "r", Persona.mk "3" "C" "r"]
            "T" [] with
          isMeetingRunning := true, hasController := true,
          agenda := ["A1", "A2"] } : AppState).turnCalls ++ [some "second"] ++ [none] :=
  interjection_consumed_once _ "first" "second" "reply" rfl rfl rfl rfl
    (by decide) (by decide) (by decide)

/-! ## The pending-entry invariant (C6) -/

/-- Counting pending entries distributes over append. -/
theorem thinkingCount_append (l1 l2 : List ChatMessage) :
    thinkingCount (l1 ++ l2) = thinkingCount l1 + thinkingCount l2 := by
  rw [thinkingCount, thinkingCount, thinkingCount, List.countP_append]

/-- Dropping every thinking entry leaves none. -/
theorem thinkingCount_filter_not (l : List ChatMessage) :
    thinkingCount (l.filter (fun m => !m.isThinking)) = 0 := by
  rw [thinkingCount, List.countP_eq_zero]
  intro a ha
  have := (List.mem_filter.mp ha).2
  simp at this
  simp [this]

/-- A one-element list contributes one pending entry iff it is thinking. -/
theorem thinkingCount_singleton (a : ChatMessage) :
    thinkingCount [a] = if a.isThinking then 1 else 0 := by
  rw [thinkingCount]
  by_cases h : a.isThinking <;> simp [h]

/-- A transcript with no pending entry satisfies the invariant whenever
the `awaitTurn` bookkeeping conjunct does. -/
theorem pendingInvariant_of_count_zero (s : AppState)
    (h0 : thinkingCount s.chatHistory = 0)
    (h5 : s.phase = Phase.awaitTurn → s.pendingTurn.isSome = true) :
    PendingInvariant s := by
  refine ⟨by omega, ?_, by omega, fun _ => h0, h5⟩
  intro msg hm ht
  have := List.countP_eq_zero.mp h0 msg hm
  simp [ht] at this

/-- A transcript that is a thinking-free prefix plus one thinking entry at
the tail satisfies the invariant in phase `awaitTurn`. -/
theorem pendingInvariant_of_single (s : AppState) (h : List ChatMessage)
    (tm : ChatMessage) (hh : s.chatHistory = h ++ [tm])
    (h0 : thinkingCount h = 0) (htm : tm.isThinking = true)
    (h3 : s.isWaitingForAI = true ∨ s.isMeetingRunning = false)
    (hph : s.phase = Phase.awaitTurn)
    (h5 : s.pendingTurn.isSome = true) :
    PendingInvariant s := by
  have hcnt : thinkingCount s.chatHistory = 1 := by
    rw [hh, thinkingCount_append, h0, thinkingCount_singleton, if_pos htm]
  refine ⟨by omega, ?_, fun _ => h3, ?_, fun _ => h5⟩
  · intro msg hm ht
    rw [hh] at hm
    rcases List.mem_append.mp hm with hm | hm
    · have := List.countP_eq_zero.mp h0 msg hm
      simp [ht] at this
    · have : msg = tm := by simpa using hm
      rw [hh, this, List.getLast?_concat]
  · intro hcon
    rcases hcon with hcon | hcon <;> rw [hph] at hcon <;> cases hcon

/-- `proceedToTurn` preserves the invariant from a thinking-free
transcript: it appends at most one notice and then either stops at the
summary notice or appends the single pending entry at the tail. -/
theorem proceedToTurn_pendingInvariant (s : AppState)
    (h0 : thinkingCount s.chatHistory = 0) :
    PendingInvariant (proceedToTurn s) := by
  rw [proceedToTurn]
  simp only []
  split_ifs
  all_goals
    first
      | exact pendingInvariant_of_count_zero _
          (by rw [thinkingCount_append, h0, thinkingCount_singleton]; rfl)
          (fun hph => by cases hph)
      | exact pendingInvariant_of_single _ s.chatHistory _ rfl h0 rfl (Or.inl rfl) rfl rfl
      | exact pendingInvariant_of_single _ (s.chatHistory ++ [createOrchestratorMessage
            ("Let's now discuss: **" ++ jsTrim (s.agenda.getD (s.currentAgendaIndex + 1) "") ++ "**")]) _ rfl
          (by rw [thinkingCount_append, h0, thinkingCount_singleton]; rfl)
          rfl (Or.inl rfl) rfl rfl
      | exact pendingInvariant_of_single _ (s.chatHistory ++ [createOrchestratorMessage
            ("Let's now discuss: **" ++ jsTrim (s.agenda.getD s.currentAgendaIndex "") ++ "**")]) _ rfl
          (by rw [thinkingCount_append, h0, thinkingCount_singleton]; rfl)
          rfl (Or.inl rfl) rfl rfl

/-- The catch block always leaves a thinking-free transcript and returns
to the idle phase. -/
theorem meetingErrorTail_pendingInvariant (e : GenResult) (s : AppState) :
    PendingInvariant (meetingErrorTail e s) := by
  have hch : ∃ l : List ChatMessage, (meetingErrorTail e s).chatHistory =
      l.filter (fun m => !m.isThinking) ∧ (meetingErrorTail e s).phase = Phase.idle := by
    rw [meetingErrorTail.eq_def]
    cases e with
    | ok t => exact ⟨_, rfl, rfl⟩
    | abortErr => exact ⟨_, rfl, rfl⟩
    | rateLimitError msg fkv =>
        cases hf : List.find? (fun k => k.value == fkv)
            { s with error := some ("An error occurred: " ++ msg) }.apiKeys with
        | none =>
            simp only [hf]
            exact ⟨_, rfl, trivial⟩
        | some fk =>
            simp only [hf]
            exact ⟨_, rfl, trivial⟩
    | otherError msg => exact ⟨_, rfl, rfl⟩
  rcases hch with ⟨l, hl, hph⟩
  refine pendingInvariant_of_count_zero _ ?_ ?_
  · rw [hl]
    exact thinkingCount_filter_not _
  · intro h
    rw [hph] at h
    cases h

/-- When the tick guard is open (last entry not thinking), an invariant
state has no pending entry at all. -/
theorem thinkingCount_zero_of_guard (s : AppState) (hg : tickGuard s = true)
    (inv : PendingInvariant s) : thinkingCount s.chatHistory = 0 := by
  rcases Nat.eq_zero_or_pos (thinkingCount s.chatHistory) with h | h
  · exact h
  · obtain ⟨msg, hm, hmt⟩ := List.countP_pos_iff.mp (by rw [thinkingCount] at h; exact h)
    have hmt' : msg.isThinking = true := by simpa using hmt
    have hlast := inv.2.1 msg hm hmt'
    rw [tickGuard, hlast] at hg
    simp [hmt'] at hg

/-- In an invariant state the transcript minus its last entry has no
pending entry. -/
theorem thinkingCount_dropLast_zero (s : AppState) (inv : PendingInvariant s) :
    thinkingCount s.chatHistory.dropLast = 0 := by
  rcases Nat.eq_zero_or_pos (thinkingCount s.chatHistory) with h | h
  · have hle : thinkingCount s.chatHistory.dropLast ≤ thinkingCount s.chatHistory := by
      rw [thinkingCount, thinkingCount]
      exact List.Sublist.countP_le _ (List.dropLast_sublist _)
    omega
  · have h1 : thinkingCount s.chatHistory = 1 := Nat.le_antisymm inv.1 h
    obtain ⟨msg, hm, hmt⟩ := List.countP_pos_iff.mp (by rw [thinkingCount] at h; exact h)
    have hmt' : msg.isThinking = true := by simpa using hmt
    have hlast := inv.2.1 msg hm hmt'
    have hne : s.chatHistory ≠ [] := List.ne_nil_of_mem hm
    have hdec : s.chatHistory.dropLast ++ [s.chatHistory.getLast hne] = s.chatHistory :=
      List.dropLast_append_getLast hne
    have hmsg : s.chatHistory.getLast hne = msg := by
      rw [List.getLast?_eq_getLast _ hne] at hlast
      simpa using hlast
    have := h1
    rw [← hdec, thinkingCount_append, thinkingCount_singleton, hmsg, if_pos hmt'] at this
    omega

/-- Every reachable app state satisfies the pending-entry invariant. -/
theorem pendingInvariant_of_reachable {s : AppState} (h : Reachable s) :
    PendingInvariant s := by
  induction h with
  | init personas topic keys =>
      exact pendingInvariant_of_count_zero _ rfl (fun hph => by cases hph)
  | start hreach ih =>
      rw [startMeeting]
      split_ifs with hcan
      · simp only [handleStartMeeting]
        split_ifs with h1 h2
        · exact ih
        · exact ih
        · refine pendingInvariant_of_count_zero _ ?_ (fun hph => ih.2.2.2.2 hph)
          rw [thinkingCount_singleton]
          rfl
      · exact ih
  | tick hreach ih =>
      rw [scheduledTick]
      split_ifs with hg hnr hnc hab hag
      · exact ih
      · exact ih
      · exact ih
      · have h0 : thinkingCount _ = 0 :=
          thinkingCount_zero_of_guard _ (by simpa using hg) ih
        refine pendingInvariant_of_count_zero _ ?_ (fun hph => ih.2.2.2.2 hph)
        show thinkingCount (_ ++ [createOrchestratorMessage _]) = 0
        rw [thinkingCount_append, h0, thinkingCount_singleton]
        rfl
      · have h0 : thinkingCount _ = 0 :=
          thinkingCount_zero_of_guard _ (by simpa using hg) ih
        exact pendingInvariant_of_count_zero _ h0 (fun hph => by cases hph)
      · exact proceedToTurn_pendingInvariant _
          (thinkingCount_zero_of_guard _ (by simpa using hg) ih)
  | agenda res hreach ih =>
      rename_i s0
      cases res with
      | ok text =>
          rw [resumeAgenda]
          split_ifs with hph
          · exact ih
          · have hphase := not_not.mp hph
            apply proceedToTurn_pendingInvariant
            show thinkingCount (s0.chatHistory ++ [createOrchestratorMessage _]) = 0
            rw [thinkingCount_append, ih.2.2.2.1 (Or.inl hphase), thinkingCount_singleton]
            rfl
      | abortErr =>
          rw [resumeAgenda]
          split_ifs with hph
          · exact ih
          · exact meetingErrorTail_pendingInvariant _ _
          all_goals exact fun text hcon => by cases hcon
      | rateLimitError m f =>
          rw [resumeAgenda]
          split_ifs with hph
          · exact ih
          · exact meetingErrorTail_pendingInvariant _ _
          all_goals exact fun text hcon => by cases hcon
      | otherError m =>
          rw [resumeAgenda]
          split_ifs with hph
          · exact ih
          · exact meetingErrorTail_pendingInvariant _ _
          all_goals exact fun text hcon => by cases hcon
  | turn res hreach ih =>
      rename_i s0
      cases res with
      | ok text =>
          rw [resumeTurn]
          split_ifs with hph
          · exact ih
          · have hphase := not_not.mp hph
            cases hpt : s0.pendingTurn with
            | none => exact absurd (ih.2.2.2.2 hphase) (by rw [hpt]; simp)
            | some tm =>
                refine pendingInvariant_of_count_zero _ ?_ (fun hph2 => by cases hph2)
                show thinkingCount (s0.chatHistory.dropLast ++ [_]) = 0
                rw [thinkingCount_append, thinkingCount_dropLast_zero _ ih,
                    thinkingCount_singleton]
                rfl
      | abortErr =>
          rw [resumeTurn]
          split_ifs with hph
          · exact ih
          · exact meetingErrorTail_pendingInvariant _ _
          all_goals exact fun text hcon => by cases hcon
      | rateLimitError m f =>
          rw [resumeTurn]
          split_ifs with hph
          · exact ih
          · exact meetingErrorTail_pendingInvariant _ _
          all_goals exact fun text hcon => by cases hcon
      | otherError m =>
          rw [resumeTurn]
          split_ifs with hph
          · exact ih
          · exact meetingErrorTail_pendingInvariant _ _
          all_goals exact fun text hcon => by cases hcon
  | summary res hreach ih =>
      rename_i s0
      cases res with
      | ok text =>
          rw [resumeSummary]
          split_ifs with hph
          · exact ih
          · have hphase := not_not.mp hph
            refine pendingInvariant_of_count_zero _ ?_ (fun hph2 => by cases hph2)
            show thinkingCount (s0.chatHistory ++ [createOrchestratorMessage _,
              createOrchestratorMessage _]) = 0
            rw [thinkingCount_append, ih.2.2.2.1 (Or.inr hphase)]
            rfl
      | abortErr =>
          rw [resumeSummary]
          split_ifs with hph
          · exact ih
          · exact meetingErrorTail_pendingInvariant _ _
          all_goals exact fun text hcon => by cases hcon
      | rateLimitError m f =>
          rw [resumeSummary]
          split_ifs with hph
          · exact ih
          · exact meetingErrorTail_pendingInvariant _ _
          all_goals exact fun text hcon => by cases hcon
      | otherError m =>
          rw [resumeSummary]
          split_ifs with hph
          · exact ih
          · exact meetingErrorTail_pendingInvariant _ _
          all_goals exact fun text hcon => by cases hcon
  | send text hreach ih =>
      rename_i s0
      rw [handleSendMessage]
      split_ifs with hguard
      · exact ih
      · simp only [Bool.or_eq_true, not_or] at hguard
        have h0 : thinkingCount s0.chatHistory = 0 := by
          rcases Nat.eq_zero_or_pos (thinkingCount s0.chatHistory) with h | h
          · exact h
          · rcases ih.2.2.1 (Nat.le_antisymm ih.1 h) with hw | hr
            · exact absurd hw hguard.2
            · exact absurd (by simp [hr]) hguard.1
        refine pendingInvariant_of_count_zero _ ?_ (fun hph => ih.2.2.2.2 hph)
        show thinkingCount (s0.chatHistory ++ [_]) = 0
        rw [thinkingCount_append, h0, thinkingCount_singleton]
        rfl
  | stop hreach ih =>
      exact ⟨ih.1, ih.2.1, fun _ => Or.inr rfl, ih.2.2.2.1, ih.2.2.2.2⟩
  | resetMeeting hreach ih =>
      exact pendingInvariant_of_count_zero _ rfl (fun hph => ih.2.2.2.2 hph)
  | cooldown id hreach ih =>
      rw [cooldownFire]
      split_ifs with hmem
      · exact ih
      · exact ih

/-- C6: in every reachable app state the transcript holds at most one
pending (thinking) entry, and any pending entry is the most recent
(last) transcript entry. -/
theorem pending_entry_at_most_one_and_last (s : AppState) (h : Reachable s) :
    thinkingCount s.chatHistory ≤ 1 ∧
      ∀ msg ∈ s.chatHistory, msg.isThinking = true →
        s.chatHistory.getLast? = some msg :=
  ⟨(pendingInvariant_of_reachable h).1, (pendingInvariant_of_reachable h).2.1⟩

/-- Witness for `pending_entry_at_most_one_and_last`: the state reached by
start, tick and a successful agenda resumption — a pending turn entry is
then outstanding. -/
theorem pending_entry_at_most_one_and_last_witness :
    thinkingCount (resumeAgenda (GenResult.ok "1. One\n2. Two")
        (scheduledTick (startMeeting (initApp [Persona.mk "1" "A" "r"] "T"
          [ApiKey.mk "k" "K" ApiKeyStatus.active])))).chatHistory ≤ 1 ∧
      ∀ msg ∈ (resumeAgenda (GenResult.ok "1. One\n2. Two")
          (scheduledTick (startMeeting (initApp [Persona.mk "1" "A" "r"] "T"
            [ApiKey.mk "k" "K" ApiKeyStatus.active])))).chatHistory,
        msg.isThinking = true →
          (resumeAgenda (GenResult.ok "1. One\n2. Two")
            (scheduledTick (startMeeting (initApp [Persona.mk "1" "A" "r"] "T"
              [ApiKey.mk "k" "K" ApiKeyStatus.active])))).chatHistory.getLast? = some msg :=
  pending_entry_at_most_one_and_last _
    (Reachable.agenda _ (Reachable.tick (Reachable.start (Reachable.init _ _ _))))

/-! ## Cancellation (C8) -/

/-- C8: stopping the meeting while a `generateTurn` call is in flight
(phase `awaitTurn`) leaves, once that call unwinds with any outcome, a
transcript with no pending entry and the running flag false; and a second
`stop()` is always a no-op. -/
theorem stop_clears_pending_and_is_idempotent (s : AppState) (res : GenResult)
    (h : Reachable s) (hph : s.phase = Phase.awaitTurn) :
    thinkingCount (resumeTurn res (handleStopMeeting s)).chatHistory = 0 ∧
      (resumeTurn res (handleStopMeeting s)).isMeetingRunning = false ∧
      ∀ s' : AppState, handleStopMeeting (handleStopMeeting s') = handleStopMeeting s' := by
  have hidem : ∀ s' : AppState,
      handleStopMeeting (handleStopMeeting s') = handleStopMeeting s' := by
    intro s'
    rw [handleStopMeeting, handleStopMeeting]
    by_cases hc : s'.hasController <;> simp [hc]
  have inv1 := pendingInvariant_of_reachable (Reachable.stop h)
  have hph' : (handleStopMeeting s).phase = Phase.awaitTurn := hph
  cases res with
  | ok t =>
      obtain ⟨tm, hpt⟩ := Option.isSome_iff_exists.mp (inv1.2.2.2.2 hph)
      rw [resumeTurn_okEq _ t tm hph' hpt]
      refine ⟨?_, rfl, hidem⟩
      show thinkingCount ((handleStopMeeting s).chatHistory.dropLast ++ [_]) = 0
      rw [thinkingCount_append, thinkingCount_dropLast_zero _ inv1,
          thinkingCount_singleton]
      rfl
  | abortErr =>
      rw [resumeTurn, if_neg (by simp [hph'])]
      refine ⟨thinkingCount_filter_not _, rfl, hidem⟩
      all_goals exact fun text hcon => by cases hcon
  | rateLimitError m f =>
      rw [resumeTurn, if_neg (by simp [hph'])]
      refine ⟨thinkingCount_filter_not _, rfl, hidem⟩
      all_goals exact fun text hcon => by cases hcon
  | otherError m =>
      rw [resumeTurn, if_neg (by simp [hph'])]
      refine ⟨thinkingCount_filter_not _, rfl, hidem⟩
      all_goals exact fun text hcon => by cases hcon

/-- Witness for `stop_clears_pending_and_is_idempotent`: stop during the
first persona turn's generation, then the in-flight call aborts. -/
theorem stop_clears_pending_and_is_idempotent_witness :
    thinkingCount (resumeTurn GenResult.abortErr (handleStopMeeting
        (resumeAgenda (GenResult.ok "1. One\n2. Two")
          (scheduledTick (startMeeting (initApp [Persona.mk "1" "A" "r"] "T"
            [ApiKey.mk "k" "K" ApiKeyStatus.active])))))).chatHistory = 0 ∧
      (resumeTurn GenResult.abortErr (handleStopMeeting
        (resumeAgenda (GenResult.ok "1. One\n2. Two")
          (scheduledTick (startMeeting (initApp [Persona.mk "1" "A" "r"] "T"
            [ApiKey.mk "k" "K" ApiKeyStatus.active])))))).isMeetingRunning = false ∧
      ∀ s' : AppState, handleStopMeeting (handleStopMeeting s') = handleStopMeeting s' :=
  stop_clears_pending_and_is_idempotent _ GenResult.abortErr
    (Reachable.agenda _ (Reachable.tick (Reachable.start (Reachable.init _ _ _))))
    (by decide)

/-! ## Happy-path transcript shape (C1) -/

/-- A mid-topic tick: the next speaker index stays in range, so the tick
appends exactly that persona's turn entry. -/
theorem runMeetingStep_nextSpeaker (personas : List Persona) (agendaItems : List String)
    (turnText : Nat → Nat → String) (summaryText : String) (s : TickState)
    (hrun : s.isMeetingRunning = true) (hab : s.aborted = false)
    (hag : s.agenda.length ≠ 0)
    (hA : s.currentAgendaIndex < s.agenda.length)
    (hS : s.currentSpeakerIndex + 1 < (personas.length : Int)) :
    runMeetingStep personas agendaItems turnText summaryText s =
      { s with currentSpeakerIndex := s.currentSpeakerIndex + 1,
               chatHistory := s.chatHistory ++
                 [turnMessage personas turnText s.currentAgendaIndex
                    (s.currentSpeakerIndex + 1).toNat] } := by
  rw [runMeetingStep]
  rw [if_neg (by simp [hrun]), if_neg (by simp [hab]), if_neg hag]
  have hw : decide ((personas.length : Int) ≤ s.currentSpeakerIndex + 1) = false := by
    rw [decide_eq_false_iff_not]
    omega
  simp only [hw, Bool.false_eq_true, if_false]
  rw [if_neg (by omega), if_neg (by omega), List.dropLast_concat]
  rfl

/-- A topic-advance tick: the speaker index wraps, the agenda index is
still in range, so the tick appends the new topic's notice and the first
persona's turn entry. -/
theorem runMeetingStep_nextTopic (personas : List Persona) (agendaItems : List String)
    (turnText : Nat → Nat → String) (summaryText : String) (s : TickState)
    (hrun : s.isMeetingRunning = true) (hab : s.aborted = false)
    (hag : s.agenda.length ≠ 0)
    (hS : (personas.length : Int) ≤ s.currentSpeakerIndex + 1)
    (hA : s.currentAgendaIndex + 1 < s.agenda.length) :
    runMeetingStep personas agendaItems turnText summaryText s =
      { s with currentAgendaIndex := s.currentAgendaIndex + 1,
               currentSpeakerIndex := 0,
               chatHistory := s.chatHistory ++
                 [topicNotice s.agenda (s.currentAgendaIndex + 1)] ++
                 [turnMessage personas turnText (s.currentAgendaIndex + 1) 0] } := by
  rw [runMeetingStep]
  rw [if_neg (by simp [hrun]), if_neg (by simp [hab]), if_neg hag]
  have hw : decide ((personas.length : Int) ≤ s.currentSpeakerIndex + 1) = true := by
    rw [decide_eq_true_eq]
    omega
  simp only [hw, if_true]
  rw [if_neg (by omega), if_pos (by omega), List.dropLast_concat]
  rfl

/-- The closing tick: the speaker index wraps and the agenda is
exhausted, so the tick appends the completion notice, the summary and the
closing notice and clears the running flag. -/
theorem runMeetingStep_summary (personas : List Persona) (agendaItems : List String)
    (turnText : Nat → Nat → String) (summaryText : String) (s : TickState)
    (hrun : s.isMeetingRunning = true) (hab : s.aborted = false)
    (hag : s.agenda.length ≠ 0)
    (hS : (personas.length : Int) ≤ s.currentSpeakerIndex + 1)
    (hA : s.agenda.length ≤ s.currentAgendaIndex + 1) :
    runMeetingStep personas agendaItems turnText summaryText s =
      { s with isMeetingRunning := false,
               chatHistory := s.chatHistory ++
                 [createOrchestratorMessage
                    "The discussion is complete. The AI Orchestrator will now summarize.",
                  createOrchestratorMessage
                    ("**Meeting Summary & Action Items:**\n" ++ summaryText),
                  createOrchestratorMessage "The meeting has concluded."] } := by
  rw [runMeetingStep]
  rw [if_neg (by simp [hrun]), if_neg (by simp [hab]), if_neg hag]
  have hw : decide ((personas.length : Int) ≤ s.currentSpeakerIndex + 1) = true := by
    rw [decide_eq_true_eq]
    omega
  simp only [hw, if_true]
  rw [if_pos (by omega)]

/-- The opening tick: the agenda is still empty, so the tick builds it,
appends the agenda notice and continues into the first persona's turn. -/
theorem runMeetingStep_buildAgenda (personas : List Persona) (agendaItems : List String)
    (turnText : Nat → Nat → String) (summaryText : String) (s : TickState)
    (hrun : s.isMeetingRunning = true) (hab : s.aborted = false)
    (hag : s.agenda = []) (hA0 : s.currentAgendaIndex = 0)
    (hS0 : s.currentSpeakerIndex = -1)
    (hn : 0 < personas.length) (hm : 0 < agendaItems.length) :
    runMeetingStep personas agendaItems turnText summaryText s =
      { s with agenda := agendaItems,
               currentAgendaIndex := 0,
               currentSpeakerIndex := 0,
               chatHistory := s.chatHistory ++
                 [createOrchestratorMessage
                    ("**Meeting Agenda:**\n" ++ String.intercalate "\n" agendaItems)] ++
                 [turnMessage personas turnText 0 0] } := by
  rcases s with ⟨ch, ag, ca, cs, run, ab⟩
  dsimp only at hrun hab hag hA0 hS0
  subst hrun hab hag hA0 hS0
  have hw : ¬((personas.length : Int) ≤ 0) := by omega
  have hsum : ¬(agendaItems.length ≤ 0) := by omega
  rw [runMeetingStep]
  simp [hw, hsum, turnMessage, List.dropLast_concat]

/-- Tick iteration composes over addition. -/
theorem runTicks_add (personas : List Persona) (agendaItems : List String)
    (turnText : Nat → Nat → String) (summaryText : String) (a b : Nat) (s : TickState) :
    runTicks personas agendaItems turnText summaryText (a + b) s =
      runTicks personas agendaItems turnText summaryText b
        (runTicks personas agendaItems turnText summaryText a s) := by
  induction a generalizing s with
  | zero =>
      rw [Nat.zero_add]
      rfl
  | succ a ih =>
      rw [show a + 1 + b = (a + b) + 1 by omega]
      rw [runTicks, ih]
      rfl

/-- A topic's block for `n' + 1` personas, decomposed. -/
theorem topicBlock_decomp (personas : List Persona) (agendaItems : List String)
    (turnText : Nat → Nat → String) (n' i : Nat) :
    topicBlock personas agendaItems turnText (n' + 1) i =
      topicNotice agendaItems i :: turnMessage personas turnText i 0 ::
        (List.range n').map (fun u => turnMessage personas turnText i (u + 1)) := by
  rw [topicBlock, topicTurns, List.range_succ_eq_map, List.map_cons, List.map_map]
  rfl

/-- Finishing the current topic: with speaker `j` done and `t` speakers
left, `t` ticks append those speakers' turns in order. -/
theorem runTicks_finishTopic (personas : List Persona) (agendaItems : List String)
    (turnText : Nat → Nat → String) (summaryText : String) (t : Nat) :
    ∀ (j : Nat) (h : List ChatMessage), j + t + 1 = personas.length →
    ∀ i : Nat, i < agendaItems.length →
    runTicks personas agendaItems turnText summaryText t
        ⟨h, agendaItems, i, (j : Int), true, false⟩ =
      ⟨h ++ (List.range t).map (fun u => turnMessage personas turnText i (j + 1 + u)),
       agendaItems, i, ((personas.length - 1 : Nat) : Int), true, false⟩ := by
  induction t with
  | zero =>
      intro j h ht i hi
      have hj : j = personas.length - 1 := by omega
      subst hj
      rw [runTicks]
      simp
  | succ t ih =>
      intro j h ht i hi
      rw [runTicks,
          runMeetingStep_nextSpeaker personas agendaItems turnText summaryText _ rfl rfl
            (by show agendaItems.length ≠ 0; omega)
            (by show i < agendaItems.length; exact hi)
            (by show (j : Int) + 1 < (personas.length : Int); omega)]
      show runTicks personas agendaItems turnText summaryText t
          ⟨h ++ [turnMessage personas turnText i (j + 1)], agendaItems, i,
            ((j + 1 : Nat) : Int), true, false⟩ = _
      rw [ih (j + 1) (h ++ [turnMessage personas turnText i (j + 1)]) (by omega) i hi]
      congr 1
      rw [List.append_assoc, List.singleton_append]
      congr 1
      rw [List.range_succ_eq_map, List.map_cons, List.map_map]
      refine List.cons_eq_cons.mpr ⟨?_, ?_⟩
      · show turnMessage personas turnText i (j + 1) =
          turnMessage personas turnText i (j + 1 + 0)
        rw [Nat.add_zero]
      · apply List.map_congr_left
        intro u _
        show turnMessage personas turnText i (j + 1 + 1 + u) =
          turnMessage personas turnText i (j + 1 + (u + 1))
        congr 1
        omega


/-- The remaining topics: from a topic-complete state (the last speaker of
topic `i` just spoke), `personas.length * r` ticks walk topics
`i+1 .. i+r`, appending each topic's notice-plus-turns block. -/
theorem runTicks_remainingTopics (personas : List Persona) (agendaItems : List String)
    (turnText : Nat → Nat → String) (summaryText : String) (r : Nat) :
    ∀ (i : Nat) (h : List ChatMessage), i + r + 1 = agendaItems.length →
    0 < personas.length →
    runTicks personas agendaItems turnText summaryText (personas.length * r)
        ⟨h, agendaItems, i, ((personas.length - 1 : Nat) : Int), true, false⟩ =
      ⟨h ++ ((List.range r).map (fun u =>
          topicBlock personas agendaItems turnText personas.length (i + 1 + u))).flatten,
       agendaItems, i + r, ((personas.length - 1 : Nat) : Int), true, false⟩ := by
  induction r with
  | zero =>
      intro i h hr hn
      rw [Nat.mul_zero, runTicks]
      simp
  | succ r ih =>
      intro i h hr hn
      obtain ⟨n', hn'⟩ : ∃ n', personas.length = n' + 1 := ⟨personas.length - 1, by omega⟩
      have hsplit : personas.length * (r + 1) = (1 + n') + personas.length * r := by
        rw [hn']
        ring
      rw [hsplit, runTicks_add, runTicks_add, runTicks, runTicks]
      rw [runMeetingStep_nextTopic personas agendaItems turnText summaryText _ rfl rfl
            (by show agendaItems.length ≠ 0; omega)
            (by show (personas.length : Int) ≤ ((personas.length - 1 : Nat) : Int) + 1; omega)
            (by show i + 1 < agendaItems.length; omega)]
      show runTicks personas agendaItems turnText summaryText (personas.length * r)
          (runTicks personas agendaItems turnText summaryText n'
            ⟨h ++ [topicNotice agendaItems (i + 1)] ++
                [turnMessage personas turnText (i + 1) 0],
              agendaItems, i + 1, ((0 : Nat) : Int), true, false⟩) = _
      rw [runTicks_finishTopic personas agendaItems turnText summaryText n' 0 _
            (by omega) (i + 1) (by omega)]
      show runTicks personas agendaItems turnText summaryText (personas.length * r)
          ⟨h ++ [topicNotice agendaItems (i + 1)] ++
              [turnMessage personas turnText (i + 1) 0] ++
              (List.range n').map (fun u => turnMessage personas turnText (i + 1) (0 + 1 + u)),
            agendaItems, i + 1, ((personas.length - 1 : Nat) : Int), true, false⟩ = _
      rw [ih (i + 1) _ (by omega) hn]
      have hmaps : (List.range n').map
            (fun u => turnMessage personas turnText (i + 1) (0 + 1 + u)) =
          (List.range n').map (fun u => turnMessage personas turnText (i + 1) (u + 1)) := by
        apply List.map_congr_left
        intro u hu
        show turnMessage personas turnText (i + 1) (0 + 1 + u) =
          turnMessage personas turnText (i + 1) (u + 1)
        congr 1
        omega
      have houter : ((List.range r).map (fun u =>
            topicBlock personas agendaItems turnText personas.length (i + 1 + 1 + u))) =
          ((List.range r).map (fun u =>
            topicBlock personas agendaItems turnText personas.length (i + 1 + (u + 1)))) := by
        apply List.map_congr_left
        intro u hu
        show topicBlock personas agendaItems turnText personas.length (i + 1 + 1 + u) =
          topicBlock personas agendaItems turnText personas.length (i + 1 + (u + 1))
        congr 1
        omega
      rw [hmaps, houter]
      congr 1
      · rw [List.range_succ_eq_map, List.map_cons, List.map_map, List.flatten_cons]
        have hcomp : ((fun u =>
              topicBlock personas agendaItems turnText personas.length (i + 1 + u)) ∘
            (fun u => u + 1)) =
            (fun u =>
              topicBlock personas agendaItems turnText personas.length (i + 1 + (u + 1))) := by
          funext u
          rfl
        rw [hcomp, hn', topicBlock_decomp, ← hn']
        simp only [topicTurns, List.append_assoc, List.cons_append, List.singleton_append,
          List.nil_append]
      · omega

/-- The whole happy-path run: from the just-started state,
`n * m + 1` ticks produce exactly `expectedTranscript` and stop the
meeting (`n` personas, `m` agenda topics, every generation call
succeeding). -/
theorem runTicks_fullRun (personas : List Persona) (agendaItems : List String)
    (turnText : Nat → Nat → String) (summaryText : String)
    (hn : 0 < personas.length) (hm : 0 < agendaItems.length) :
    runTicks personas agendaItems turnText summaryText
        (personas.length * agendaItems.length + 1) startedTickState =
      ⟨expectedTranscript personas agendaItems turnText summaryText
          personas.length agendaItems.length,
        agendaItems, agendaItems.length - 1, ((personas.length - 1 : Nat) : Int),
        false, false⟩ := by
  obtain ⟨n', hn'⟩ : ∃ n', personas.length = n' + 1 := ⟨personas.length - 1, by omega⟩
  obtain ⟨m', hm'⟩ : ∃ m', agendaItems.length = m' + 1 := ⟨agendaItems.length - 1, by omega⟩
  have hsplit : personas.length * agendaItems.length + 1 =
      1 + (n' + (personas.length * m' + 1)) := by
    rw [hn', hm']
    ring
  rw [hsplit, runTicks_add, runTicks, runTicks]
  rw [runMeetingStep_buildAgenda personas agendaItems turnText summaryText startedTickState
        rfl rfl rfl rfl rfl hn hm]
  rw [runTicks_add]
  show runTicks personas agendaItems turnText summaryText (personas.length * m' + 1)
      (runTicks personas agendaItems turnText summaryText n'
        ⟨startedTickState.chatHistory ++
            [createOrchestratorMessage
              ("**Meeting Agenda:**\n" ++ String.intercalate "\n" agendaItems)] ++
            [turnMessage personas turnText 0 0],
          agendaItems, 0, ((0 : Nat) : Int), true, false⟩) = _
  rw [runTicks_finishTopic personas agendaItems turnText summaryText n' 0 _
        (by omega) 0 (by omega)]
  rw [runTicks_add personas agendaItems turnText summaryText (personas.length * m') 1]
  rw [runTicks_remainingTopics personas agendaItems turnText summaryText m' 0 _
        (by omega) hn]
  rw [runTicks, runTicks]
  rw [runMeetingStep_summary personas agendaItems turnText summaryText _ rfl rfl
        (by show agendaItems.length ≠ 0; omega)
        (by show (personas.length : Int) ≤ ((personas.length - 1 : Nat) : Int) + 1; omega)
        (by show agendaItems.length ≤ 0 + m' + 1; omega)]
  have hmaps : (List.range n').map
        (fun u => turnMessage personas turnText 0 (0 + 1 + u)) =
      (List.range n').map (fun u => turnMessage personas turnText 0 (u + 1)) := by
    apply List.map_congr_left
    intro u hu
    show turnMessage personas turnText 0 (0 + 1 + u) =
      turnMessage personas turnText 0 (u + 1)
    congr 1
    omega
  have houter : ((List.range m').map (fun u =>
        topicBlock personas agendaItems turnText personas.length (0 + 1 + u))) =
      ((List.range m').map (fun u =>
        topicBlock personas agendaItems turnText personas.length (u + 1))) := by
    apply List.map_congr_left
    intro u hu
    show topicBlock personas agendaItems turnText personas.length (0 + 1 + u) =
      topicBlock personas agendaItems turnText personas.length (u + 1)
    congr 1
    omega
  have hturns : topicTurns personas turnText personas.length 0 =
      turnMessage personas turnText 0 0 ::
        (List.range n').map (fun u => turnMessage personas turnText 0 (u + 1)) := by
    rw [topicTurns, hn', List.range_succ_eq_map, List.map_cons, List.map_map]
    rfl
  have hsub : agendaItems.length - 1 = m' := by omega
  congr 1
  · rw [hmaps, houter, expectedTranscript, hsub, hturns]
    show ([createOrchestratorMessage
        "The meeting will now begin. The AI Orchestrator is generating an agenda..."] ++
          [createOrchestratorMessage
            ("**Meeting Agenda:**\n" ++ String.intercalate "\n" agendaItems)] ++
          [turnMessage personas turnText 0 0] ++
          (List.range n').map (fun u => turnMessage personas turnText 0 (u + 1)) ++
          ((List.range m').map (fun u =>
            topicBlock personas agendaItems turnText personas.length (u + 1))).flatten ++
          [createOrchestratorMessage
            "The discussion is complete. The AI Orchestrator will now summarize.",
           createOrchestratorMessage
            ("**Meeting Summary & Action Items:**\n" ++ summaryText),
           createOrchestratorMessage "The meeting has concluded."]) = _
    simp only [List.append_assoc, List.cons_append, List.singleton_append, List.nil_append]
  · show 0 + m' = agendaItems.length - 1
    omega

/-- A character list is a (boolean) prefix of itself followed by anything. -/
theorem isPrefixOf_append_self (l t : List Char) : l.isPrefixOf (l ++ t) = true := by
  induction l with
  | nil => simp [List.isPrefixOf]
  | cons a as ih => simp [List.isPrefixOf, ih]

/-- Character lists with different heads are not (boolean) prefixes. -/
theorem isPrefixOf_cons_ne (a b : Char) (l t : List Char) (h : ¬ a = b) :
    (a :: l).isPrefixOf (b :: t) = false := by
  simp [List.isPrefixOf, h]

/-- Counting over a flattened range-indexed family with constant per-piece
count. -/
theorem countP_flatten_range (p : ChatMessage → Bool) (c : Nat)
    (f : Nat → List ChatMessage) (r : Nat)
    (hf : ∀ u, u < r → (f u).countP p = c) :
    (((List.range r).map f).flatten).countP p = r * c := by
  induction r with
  | zero => simp
  | succ r ih =>
      rw [List.range_succ, List.map_append, List.flatten_append, List.countP_append]
      rw [ih (fun u hu => hf u (by omega))]
      simp [hf r (by omega), Nat.succ_mul]

/-- A topic notice is classified as a topic notice. -/
theorem isTopicNoticeMsg_notice (agendaItems : List String) (i : Nat) :
    isTopicNoticeMsg (topicNotice agendaItems i) = true := by
  show "Let's now discuss: **".toList.isPrefixOf
      ("Let's now discuss: **" ++ jsTrim (agendaItems.getD i "") ++ "**").toList = true
  show "Let's now discuss: **".data.isPrefixOf
      ("Let's now discuss: **" ++ jsTrim (agendaItems.getD i "") ++ "**").data = true
  rw [String.data_append, String.data_append, List.append_assoc]
  exact isPrefixOf_append_self _ _

/-- An orchestrator notice whose text starts with a star is not a topic
notice ("Let's now discuss" starts with an L). -/
theorem isTopicNoticeMsg_star (s x : String) (r : List Char)
    (hs : s.data = Char.ofNat 42 :: r) :
    isTopicNoticeMsg (createOrchestratorMessage (s ++ x)) = false := by
  show "Let's now discuss: **".toList.isPrefixOf (s ++ x).toList = false
  show "Let's now discuss: **".data.isPrefixOf (s ++ x).data = false
  rw [String.data_append, hs]
  show (Char.ofNat 76 :: "et's now discuss: **".data).isPrefixOf
      (Char.ofNat 42 :: (r ++ x.data)) = false
  exact isPrefixOf_cons_ne _ _ _ _ (by decide)

/-- Every entry of `topicTurns` is a persona turn. -/
theorem countP_topicTurns_persona (personas : List Persona)
    (turnText : Nat → Nat → String) (n i : Nat) :
    (topicTurns personas turnText n i).countP isPersonaTurnMsg = n := by
  rw [topicTurns, List.countP_map]
  have h1 : ∀ a ∈ List.range n,
      (isPersonaTurnMsg ∘ fun j => turnMessage personas turnText i j) a = true :=
    fun a ha => rfl
  rw [List.countP_eq_length.mpr h1, List.length_range]

/-- No entry of `topicTurns` is a topic notice. -/
theorem countP_topicTurns_notice (personas : List Persona)
    (turnText : Nat → Nat → String) (n i : Nat) :
    (topicTurns personas turnText n i).countP isTopicNoticeMsg = 0 := by
  rw [topicTurns, List.countP_map]
  exact List.countP_eq_zero.mpr (fun a ha => Bool.false_ne_true)

/-- A topic block holds exactly `n` persona turns. -/
theorem countP_topicBlock_persona (personas : List Persona) (agendaItems : List String)
    (turnText : Nat → Nat → String) (n i : Nat) :
    (topicBlock personas agendaItems turnText n i).countP isPersonaTurnMsg = n := by
  rw [topicBlock, List.countP_cons_of_neg _ _ Bool.false_ne_true]
  exact countP_topicTurns_persona personas turnText n i

/-- A topic block holds exactly one topic notice. -/
theorem countP_topicBlock_notice (personas : List Persona) (agendaItems : List String)
    (turnText : Nat → Nat → String) (n i : Nat) :
    (topicBlock personas agendaItems turnText n i).countP isTopicNoticeMsg = 1 := by
  rw [topicBlock,
    List.countP_cons_of_pos _ _ (isTopicNoticeMsg_notice agendaItems i),
    countP_topicTurns_notice]

/-- The happy-path transcript holds exactly `n * m` persona turns. -/
theorem expectedTranscript_personaCount (personas : List Persona)
    (agendaItems : List String) (turnText : Nat → Nat → String)
    (summaryText : String) (n m : Nat) (hm : 0 < m) :
    (expectedTranscript personas agendaItems turnText summaryText n m).countP
        isPersonaTurnMsg = n * m := by
  obtain ⟨m2, hm2⟩ : ∃ m2, m = m2 + 1 := ⟨m - 1, by omega⟩
  rw [expectedTranscript,
      List.countP_cons_of_neg _ _ Bool.false_ne_true,
      List.countP_cons_of_neg _ _ Bool.false_ne_true,
      List.countP_append, List.countP_append,
      countP_topicTurns_persona,
      countP_flatten_range _ n _ _
        (fun u hu => countP_topicBlock_persona personas agendaItems turnText n (u + 1)),
      List.countP_cons_of_neg _ _ Bool.false_ne_true,
      List.countP_cons_of_neg _ _ Bool.false_ne_true,
      List.countP_cons_of_neg _ _ Bool.false_ne_true,
      List.countP_nil]
  subst hm2
  simp only [Nat.add_sub_cancel]
  ring

/-- The happy-path transcript holds exactly `m - 1` topic notices: the
first topic is never announced. -/
theorem expectedTranscript_noticeCount (personas : List Persona)
    (agendaItems : List String) (turnText : Nat → Nat → String)
    (summaryText : String) (n m : Nat) :
    (expectedTranscript personas agendaItems turnText summaryText n m).countP
        isTopicNoticeMsg = m - 1 := by
  have hAg : isTopicNoticeMsg (createOrchestratorMessage
      ("**Meeting Agenda:**\n" ++ String.intercalate "\n" agendaItems)) = false :=
    isTopicNoticeMsg_star "**Meeting Agenda:**\n" (String.intercalate "\n" agendaItems)
      ("*Meeting Agenda:**\n".data) (by rfl)
  have hSum : isTopicNoticeMsg (createOrchestratorMessage
      ("**Meeting Summary & Action Items:**\n" ++ summaryText)) = false :=
    isTopicNoticeMsg_star "**Meeting Summary & Action Items:**\n" summaryText
      ("*Meeting Summary & Action Items:**\n".data) (by rfl)
  rw [expectedTranscript,
      List.countP_cons_of_neg _ _ (by decide),
      List.countP_cons_of_neg _ _ (by simp [hAg]),
      List.countP_append, List.countP_append,
      countP_topicTurns_notice,
      countP_flatten_range _ 1 _ _
        (fun u hu => countP_topicBlock_notice personas agendaItems turnText n (u + 1)),
      List.countP_cons_of_neg _ _ (by decide),
      List.countP_cons_of_neg _ _ (by simp [hSum]),
      List.countP_cons_of_neg _ _ (by decide),
      List.countP_nil]
  omega

/-- C1 amended: for every non-empty persona list of length `n` and agenda
of length `m`, the happy-path run (no interjections, no failures, no
cancellation) halts after `n * m + 1` ticks with transcript exactly
`expectedTranscript`: opening notice, agenda listing, the FIRST topic's
`n` turns with no per-topic notice, then for each LATER topic its notice
followed by its `n` turns, then the completion notice, the summary and
the closing notice — so `n * m` persona turns but only `m - 1` topic
notices, not the `m` the claim states. -/
theorem meeting_run_transcript (personas : List Persona) (agendaItems : List String)
    (turnText : Nat → Nat → String) (summaryText : String)
    (hn : 0 < personas.length) (hm : 0 < agendaItems.length) :
    (runTicks personas agendaItems turnText summaryText
        (personas.length * agendaItems.length + 1) startedTickState).chatHistory =
      expectedTranscript personas agendaItems turnText summaryText
        personas.length agendaItems.length ∧
    (runTicks personas agendaItems turnText summaryText
        (personas.length * agendaItems.length + 1) startedTickState).isMeetingRunning =
      false ∧
    (expectedTranscript personas agendaItems turnText summaryText
        personas.length agendaItems.length).countP isPersonaTurnMsg =
      personas.length * agendaItems.length ∧
    (expectedTranscript personas agendaItems turnText summaryText
        personas.length agendaItems.length).countP isTopicNoticeMsg =
      agendaItems.length - 1 := by
  refine ⟨?_, ?_, ?_, ?_⟩
  · rw [runTicks_fullRun personas agendaItems turnText summaryText hn hm]
  · rw [runTicks_fullRun personas agendaItems turnText summaryText hn hm]
  · exact expectedTranscript_personaCount personas agendaItems turnText summaryText
      personas.length agendaItems.length hm
  · exact expectedTranscript_noticeCount personas agendaItems turnText summaryText
      personas.length agendaItems.length

/-- C1 counterexample: the claim promises one orchestrator notice per
agenda topic.  With 2 personas and the 2-topic agenda of the spec's own
example, the completed run's transcript holds exactly one topic notice
(for the second topic), not two: the first topic is discussed without
ever being announced. -/
theorem meeting_topic_notice_counterexample :
    ((runTicks [Persona.mk "p1" "Alice" "CEO", Persona.mk "p2" "Bob" "CTO"]
        ["Pricing", "Timeline"] (fun _ _ => "turn") "summary" 5
        startedTickState).isMeetingRunning = false) ∧
    ((runTicks [Persona.mk "p1" "Alice" "CEO", Persona.mk "p2" "Bob" "CTO"]
        ["Pricing", "Timeline"] (fun _ _ => "turn") "summary" 5
        startedTickState).chatHistory.countP isTopicNoticeMsg = 1) ∧
    ((runTicks [Persona.mk "p1" "Alice" "CEO", Persona.mk "p2" "Bob" "CTO"]
        ["Pricing", "Timeline"] (fun _ _ => "turn") "summary" 5
        startedTickState).chatHistory.countP isTopicNoticeMsg ≠
      (["Pricing", "Timeline"] : List String).length) := by
  refine ⟨by decide, by decide, by decide⟩

/-- Witness for C1 at 2 personas and 2 agenda topics. -/
theorem meeting_run_transcript_witness :
    0 < ([Persona.mk "p1" "Alice" "CEO", Persona.mk "p2" "Bob" "CTO"] : List Persona).length ∧
    0 < (["Pricing", "Timeline"] : List String).length ∧
    ((runTicks [Persona.mk "p1" "Alice" "CEO", Persona.mk "p2" "Bob" "CTO"]
        ["Pricing", "Timeline"] (fun _ _ => "turn") "summary"
        (([Persona.mk "p1" "Alice" "CEO", Persona.mk "p2" "Bob" "CTO"] : List Persona).length *
          (["Pricing", "Timeline"] : List String).length + 1) startedTickState).chatHistory =
      expectedTranscript [Persona.mk "p1" "Alice" "CEO", Persona.mk "p2" "Bob" "CTO"]
        ["Pricing", "Timeline"] (fun _ _ => "turn") "summary"
        ([Persona.mk "p1" "Alice" "CEO", Persona.mk "p2" "Bob" "CTO"] : List Persona).length
        (["Pricing", "Timeline"] : List String).length ∧
    (runTicks [Persona.mk "p1" "Alice" "CEO", Persona.mk "p2" "Bob" "CTO"]
        ["Pricing", "Timeline"] (fun _ _ => "turn") "summary"
        (([Persona.mk "p1" "Alice" "CEO", Persona.mk "p2" "Bob" "CTO"] : List Persona).length *
          (["Pricing", "Timeline"] : List String).length + 1) startedTickState).isMeetingRunning =
      false ∧
    (expectedTranscript [Persona.mk "p1" "Alice" "CEO", Persona.mk "p2" "Bob" "CTO"]
        ["Pricing", "Timeline"] (fun _ _ => "turn") "summary"
        ([Persona.mk "p1" "Alice" "CEO", Persona.mk "p2" "Bob" "CTO"] : List Persona).length
        (["Pricing", "Timeline"] : List String).length).countP isPersonaTurnMsg =
      ([Persona.mk "p1" "Alice" "CEO", Persona.mk "p2" "Bob" "CTO"] : List Persona).length *
        (["Pricing", "Timeline"] : List String).length ∧
    (expectedTranscript [Persona.mk "p1" "Alice" "CEO", Persona.mk "p2" "Bob" "CTO"]
        ["Pricing", "Timeline"] (fun _ _ => "turn") "summary"
        ([Persona.mk "p1" "Alice" "CEO", Persona.mk "p2" "Bob" "CTO"] : List Persona).length
        (["Pricing", "Timeline"] : List String).length).countP isTopicNoticeMsg =
      (["Pricing", "Timeline"] : List String).length - 1) :=
  ⟨by decide, by decide,
    meeting_run_transcript [Persona.mk "p1" "Alice" "CEO", Persona.mk "p2" "Bob" "CTO"]
      ["Pricing", "Timeline"] (fun _ _ => "turn") "summary" (by decide) (by decide)⟩
